import Mathlib

/-!
Verification of the marble-xylophone audio/animation core.

Shallow embedding of the repository's TypeScript classes:

* `MarblePhysics` (marble integration, key collision, note triggering),
* `AudioAnalyzer` (feature extraction: band levels, RMS volume, beat flag),
* `AnimationEngine` (effect resource map and per-frame effect updates),
* a NaN-aware model of JavaScript number arithmetic for the
  division-by-zero path in `getFrequencyLevel`.

Machine numbers are modelled as exact rationals (`ℚ`); the platform's
`Math.sqrt` and `Math.sin` are modelled as function parameters, and
`Math.random()` streams as explicit function arguments.  All definitions
are executable.
-/

namespace MusicAnim

/-- Model of `THREE.Vector3` (only the components; three.js vector
operations used by the source are modelled immutably below). -/
structure Vec3 where
  x : ℚ
  y : ℚ
  z : ℚ
deriving DecidableEq, Repr

/-- `v.add w` — componentwise sum (`THREE.Vector3.add`). -/
def Vec3.add (a b : Vec3) : Vec3 := ⟨a.x + b.x, a.y + b.y, a.z + b.z⟩

/-- `v.multiplyScalar c` (`THREE.Vector3.multiplyScalar`). -/
def Vec3.smul (c : ℚ) (a : Vec3) : Vec3 := ⟨c * a.x, c * a.y, c * a.z⟩

/-- `MarblePhysics` constructor constant: `gravity = (0, -9.8, 0)`. -/
def gravity : Vec3 := ⟨0, -(49/5), 0⟩

/-- `MarblePhysics` constructor constant: `friction = 0.98`. -/
def friction : ℚ := 49/50

/-- `MarblePhysics` constructor constant: `bounceDamping = 0.7`. -/
def bounceDamping : ℚ := 7/10

/-- The `MarbleState` interface of `MarblePhysics`. -/
structure MarbleState where
  position : Vec3
  velocity : Vec3
  acceleration : Vec3
  radius : ℚ
  mass : ℚ
  bounceCount : ℕ
  isActive : Bool
deriving DecidableEq, Repr

/-- The `XylophoneKey` interface of `MarblePhysics` (`color` kept as the
hex literal passed to `THREE.Color`). -/
structure XylophoneKey where
  position : Vec3
  width : ℚ
  height : ℚ
  depth : ℚ
  note : String
  frequency : ℚ
  color : ℕ
  isHit : Bool
  hitTime : ℚ
deriving DecidableEq, Repr

/-- One key of `setupXylophoneKeys`: position `(i*2-6, 0, 0)`, width 1.5,
height 0.3, depth 0.8. -/
def mkKey (i : ℕ) (note : String) (frequency : ℚ) (color : ℕ) : XylophoneKey :=
  { position := ⟨2 * i - 6, 0, 0⟩
    width := 3/2
    height := 3/10
    depth := 4/5
    note := note
    frequency := frequency
    color := color
    isHit := false
    hitTime := 0 }

/-- The seven keys built by `MarblePhysics.setupXylophoneKeys`. -/
def setupXylophoneKeys : List XylophoneKey :=
  [ mkKey 0 "C" (26163/100) 0xff6b6b
  , mkKey 1 "D" (29366/100) 0xffa726
  , mkKey 2 "E" (32963/100) 0xffeb3b
  , mkKey 3 "F" (34923/100) 0x4caf50
  , mkKey 4 "G" 392 0x2196f3
  , mkKey 5 "A" 440 0x9c27b0
  , mkKey 6 "B" (49388/100) 0xe91e63 ]

/-- Key number `j` of the fixed layout (`getD` with a junk default for
`j ≥ 7`; all uses carry `j < 7`). -/
def keyAt (j : ℕ) : XylophoneKey :=
  setupXylophoneKeys.getD j (mkKey 0 "C" 0 0)

/-- The AABB test of `MarblePhysics.checkKeyCollisions` (part_000 lines
254-259): the marble's center `x` against the key's x-extent, and the
center `y` against the key's y-extent widened by the marble radius. -/
def collides (m : MarbleState) (k : XylophoneKey) : Bool :=
  decide (k.position.x - k.width / 2 ≤ m.position.x) &&
  decide (m.position.x ≤ k.position.x + k.width / 2) &&
  decide (m.position.y ≤ k.position.y + k.height / 2 + m.radius) &&
  decide (k.position.y - k.height / 2 - m.radius ≤ m.position.y)

/-- The collision predicate as the specification document words it
(§4.3 step 4): axis-aligned overlap of the marble's projected extent
(center ± radius on both X and Y) with the key's box footprint, Z
ignored.  Stated from the spec, to be compared with `collides`. -/
def specExtentOverlap (m : MarbleState) (k : XylophoneKey) : Bool :=
  decide (k.position.x - k.width / 2 ≤ m.position.x + m.radius) &&
  decide (m.position.x - m.radius ≤ k.position.x + k.width / 2) &&
  decide (k.position.y - k.height / 2 ≤ m.position.y + m.radius) &&
  decide (m.position.y - m.radius ≤ k.position.y + k.height / 2)

/-- A marble used only as a concrete test input. -/
def marbleC3 : MarbleState :=
  { position := ⟨9/10, 0, 0⟩
    velocity := ⟨0, -1, 0⟩
    acceleration := ⟨0, 0, 0⟩
    radius := 3/10
    mass := 1
    bounceCount := 0
    isActive := true }

/-- Claim C3 (counterexample): a marble centered at `x = 0.9` with radius
`0.3` has X-extent `[0.6, 1.2]` overlapping the key at the origin
(footprint `[-0.75, 0.75]`), yet `checkKeyCollisions`' test fails,
because the code compares the center point alone on X. -/
theorem collision_extent_claim_false :
    specExtentOverlap marbleC3 (keyAt 3) = true ∧
    collides marbleC3 (keyAt 3) = false := by
  constructor <;>
    norm_num [specExtentOverlap, collides, marbleC3, keyAt, setupXylophoneKeys,
      mkKey, List.getD_cons_succ, List.getD_cons_zero]

/-- Claim C3 (amended): the collision test succeeds exactly when the
key's X footprint contains the marble's center point (center alone, not
center ± radius) and the marble's `[y - r, y + r]` extent overlaps the
key's Y footprint; Z depth is ignored. -/
theorem collides_iff (m : MarbleState) (k : XylophoneKey) :
    collides m k = true ↔
      (k.position.x - k.width / 2 ≤ m.position.x ∧
       m.position.x ≤ k.position.x + k.width / 2 ∧
       m.position.y - m.radius ≤ k.position.y + k.height / 2 ∧
       k.position.y - k.height / 2 ≤ m.position.y + m.radius) := by
  unfold collides
  simp only [Bool.and_eq_true, decide_eq_true_eq]
  constructor
  · rintro ⟨⟨⟨h1, h2⟩, h3⟩, h4⟩
    exact ⟨h1, h2, by linarith, by linarith⟩
  · rintro ⟨h1, h2, h3, h4⟩
    exact ⟨⟨⟨h1, h2⟩, by linarith⟩, by linarith⟩

/-! ## AudioAnalyzer (part_004): feature extraction -/

/-- The `AudioData` record of the shared types module: raw buffers plus
derived per-frame features. -/
structure AudioData where
  frequencyData : List ℚ
  timeDomainData : List ℚ
  bassLevel : ℚ
  midLevel : ℚ
  trebleLevel : ℚ
  volume : ℚ
  beat : Bool
deriving DecidableEq, Repr

/-- Observable state of an `AudioAnalyzer`: the two analysis buffers are
`none` until `initAudioContext` succeeds (they stay `none` forever if it
fails); `sourceLoaded` records whether `loadAudioFile` succeeded. -/
structure AudioAnalyzerState where
  frequencyData : Option (List ℚ)
  timeDomainData : Option (List ℚ)
  sourceLoaded : Bool

/-- `AudioAnalyzer.calculateFrequencyBand`: mean of `|data[i]|` over the
index range `[⌊start/100·len⌋, ⌊end/100·len⌋)`.  Note the `ℚ`-division
returns the junk value `0` when the range is empty, where JavaScript
produces `NaN`; the NaN behaviour is modelled separately by `JSVal`. -/
def calculateFrequencyBand (data : List ℚ) (start finish : ℚ) : ℚ :=
  let len : ℕ := data.length
  let startIndex : ℕ := (⌊start / 100 * len⌋).toNat
  let endIndex : ℕ := (⌊finish / 100 * len⌋).toNat
  let sum : ℚ := ((List.range (endIndex - startIndex)).map
    (fun i => |data.getD (startIndex + i) 0|)).sum
  sum / ((endIndex : ℚ) - (startIndex : ℚ))

/-- `AudioAnalyzer.calculateRMS`, with the platform's `Math.sqrt`
modelled by the parameter `sqrtFn`. -/
def calculateRMS (sqrtFn : ℚ → ℚ) (data : List ℚ) : ℚ :=
  sqrtFn ((data.map (fun x => x * x)).sum / (data.length : ℚ))

/-- `AudioAnalyzer.detectBeat`: `volume > 0.3` with the fixed threshold
`0.3`. -/
def detectBeat (volume : ℚ) : Bool := decide (volume > 3/10)

/-- The all-zero/empty `AudioData` returned by `getAudioData` when the
analysis buffers were never initialized. -/
def emptyAudioData : AudioData := ⟨[], [], 0, 0, 0, 0, false⟩

/-- `AudioAnalyzer.getAudioData` (part_004 lines 134-167). -/
def getAudioData (sqrtFn : ℚ → ℚ) (st : AudioAnalyzerState) : AudioData :=
  match st.frequencyData, st.timeDomainData with
  | some fd, some td =>
    let bassLevel := calculateFrequencyBand fd 0 10
    let midLevel := calculateFrequencyBand fd 10 50
    let trebleLevel := calculateFrequencyBand fd 50 100
    let volume := calculateRMS sqrtFn td
    let beat := detectBeat volume
    ⟨fd, td, bassLevel, midLevel, trebleLevel, volume, beat⟩
  | _, _ => emptyAudioData

/-- Claim C6: every produced `AudioData` has `beat = (volume > 0.3)`
exactly, and `detectBeat` is the pure threshold function of the volume
alone (no smoothing or hysteresis), for any volume value. -/
theorem beat_is_volume_threshold (sqrtFn : ℚ → ℚ) (st : AudioAnalyzerState) :
    ((getAudioData sqrtFn st).beat
       = decide ((getAudioData sqrtFn st).volume > 3/10)) ∧
    ∀ v : ℚ, detectBeat v = decide (v > 3/10) := by
  refine ⟨?_, fun v => rfl⟩
  rcases st with ⟨fd, td, src⟩
  cases fd with
  | none =>
    cases td <;>
      · show (emptyAudioData).beat = decide ((emptyAudioData).volume > 3/10)
        simp only [emptyAudioData]
        norm_num
  | some fdata =>
    cases td with
    | none =>
      show (emptyAudioData).beat = decide ((emptyAudioData).volume > 3/10)
      simp only [emptyAudioData]
      norm_num
    | some tdata => rfl

/-- An analyzer whose `initAudioContext` succeeded (buffers allocated at
`frequencyBinCount = 2048/2 = 1024`, zero-filled) but with no audio
loaded yet: `startAnalysis` never ran, so the buffers still hold zeros. -/
def idleAnalyzer : AudioAnalyzerState :=
  ⟨some (List.replicate 1024 0), some (List.replicate 1024 0), false⟩

/-- An analyzer whose `initAudioContext` failed: both buffers `null`. -/
def uninitializedAnalyzer : AudioAnalyzerState := ⟨none, none, false⟩

/-- Claim C9 (counterexample): with initialization succeeded but no audio
loaded, `getAudioData` does not return empty raw buffers — it returns
the zero-filled 1024-entry buffers, so the claimed "empty raw buffers"
shape does not hold for the "no audio has been loaded" case. -/
theorem audio_failure_vector_claim_false :
    (getAudioData (fun q => q) idleAnalyzer).frequencyData.length = 1024 ∧
    (getAudioData (fun q => q) idleAnalyzer).frequencyData.length ≠ 0 := by
  have h : (getAudioData (fun q => q) idleAnalyzer).frequencyData
      = List.replicate 1024 0 := rfl
  rw [h, List.length_replicate]
  exact ⟨rfl, by decide⟩

/-- Every entry lookup in a zero-filled buffer yields `0`. -/
theorem getD_replicate_zero (n i : ℕ) : (List.replicate n (0:ℚ)).getD i 0 = 0 := by
  induction n generalizing i with
  | zero => simp
  | succ n ih =>
    cases i with
    | zero => simp [List.replicate]
    | succ i => simp [List.replicate, ih i]

/-- Claim C9 (amended): if the analysis capability could not initialize
(buffers never allocated), `getAudioData` returns the all-zero
FeatureVector with empty raw buffers; if initialization succeeded but no
audio has been loaded (buffers zero-filled), it returns zero band
levels, zero volume and `beat = false`, but the raw buffers are the
zero-filled non-empty buffers rather than empty ones.  In both cases the
call is a total function (never throws). -/
theorem audio_feature_failure_modes (sqrtFn : ℚ → ℚ) (st : AudioAnalyzerState)
    (n : ℕ) :
    (st.frequencyData = none ∨ st.timeDomainData = none →
      getAudioData sqrtFn st = emptyAudioData) ∧
    (sqrtFn 0 = 0 →
      getAudioData sqrtFn ⟨some (List.replicate n 0), some (List.replicate n 0), false⟩ =
        ⟨List.replicate n 0, List.replicate n 0, 0, 0, 0, 0, false⟩) := by
  constructor
  · rintro (h | h)
    · cases h2 : st.timeDomainData <;> simp [getAudioData, h, h2]
    · cases h2 : st.frequencyData <;> simp [getAudioData, h, h2]
  · intro hsqrt
    have hband : ∀ a b : ℚ,
        calculateFrequencyBand (List.replicate n 0) a b = 0 := by
      intro a b
      simp only [calculateFrequencyBand, getD_replicate_zero, abs_zero,
        List.map_const', List.sum_replicate, smul_zero, zero_div]
    have hrms : calculateRMS sqrtFn (List.replicate n 0) = 0 := by
      simp only [calculateRMS, List.map_replicate, mul_zero, List.sum_replicate,
        smul_zero, zero_div, hsqrt]
    show AudioData.mk _ _ _ _ _ _ _ = _
    rw [hband, hband, hband, hrms]
    have hb : detectBeat 0 = false := by
      simp only [detectBeat]
      norm_num
    rw [hb]

/-- Witness for `audio_feature_failure_modes`: both hypotheses are
satisfiable (initialization failure returns the empty vector; the idle
analyzer returns the zero-filled one). -/
theorem audio_feature_failure_modes_witness :
    getAudioData (fun q => q) uninitializedAnalyzer = emptyAudioData ∧
    getAudioData (fun q => q)
        ⟨some (List.replicate 1024 0), some (List.replicate 1024 0), false⟩ =
      ⟨List.replicate 1024 0, List.replicate 1024 0, 0, 0, 0, 0, false⟩ := by
  exact ⟨(audio_feature_failure_modes (fun q => q) uninitializedAnalyzer 1024).1
      (Or.inl rfl),
    (audio_feature_failure_modes (fun q => q) uninitializedAnalyzer 1024).2 rfl⟩

/-! ## A NaN-aware model of JavaScript number arithmetic

`MarblePhysics.getFrequencyLevel` divides by `endIndex - startIndex`,
which is `0` for short buffers; in JavaScript `0/0` is `NaN` and `NaN`
propagates through arithmetic.  `JSVal` models the finite / `NaN` /
`±Infinity` values and the operations used on this code path. -/

/-- A JavaScript number: a finite value, `NaN`, or `±Infinity`. -/
inductive JSVal
  | num (q : ℚ)
  | nan
  | inf
  | ninf
deriving DecidableEq, Repr

/-- JavaScript `+` on numbers. -/
def JSVal.add : JSVal → JSVal → JSVal
  | num a, num b => num (a + b)
  | nan, _ => nan
  | _, nan => nan
  | inf, ninf => nan
  | ninf, inf => nan
  | inf, _ => inf
  | _, inf => inf
  | ninf, _ => ninf
  | _, ninf => ninf

/-- JavaScript `*` on numbers. -/
def JSVal.mul : JSVal → JSVal → JSVal
  | num a, num b => num (a * b)
  | nan, _ => nan
  | _, nan => nan
  | inf, inf => inf
  | inf, ninf => ninf
  | ninf, inf => ninf
  | ninf, ninf => inf
  | inf, num b => if b = 0 then nan else if 0 < b then inf else ninf
  | num a, inf => if a = 0 then nan else if 0 < a then inf else ninf
  | ninf, num b => if b = 0 then nan else if 0 < b then ninf else inf
  | num a, ninf => if a = 0 then nan else if 0 < a then ninf else inf

/-- JavaScript `/` on numbers (`0/0 = NaN`, `a/0 = ±Infinity` for
`a ≠ 0`). -/
def JSVal.div : JSVal → JSVal → JSVal
  | num a, num b =>
    if b = 0 then (if a = 0 then nan else if 0 < a then inf else ninf)
    else num (a / b)
  | nan, _ => nan
  | _, nan => nan
  | inf, inf => nan
  | inf, ninf => nan
  | ninf, inf => nan
  | ninf, ninf => nan
  | num _, inf => num 0
  | num _, ninf => num 0
  | inf, num b => if 0 ≤ b then inf else ninf
  | ninf, num b => if 0 ≤ b then ninf else inf

/-- JavaScript `Math.abs`. -/
def JSVal.abs : JSVal → JSVal
  | num a => num |a|
  | nan => nan
  | inf => inf
  | ninf => inf

/-- JavaScript `<` as a boolean (every comparison with `NaN` is false). -/
def JSVal.lt : JSVal → JSVal → Bool
  | num a, num b => decide (a < b)
  | nan, _ => false
  | _, nan => false
  | inf, _ => false
  | ninf, ninf => false
  | ninf, _ => true
  | num _, inf => true
  | num _, ninf => false

/-- `MarblePhysics.getFrequencyLevel` (part_000 lines 236-247) under
JavaScript number semantics: mean of `|frequencyData[i]|` over the index
range `[⌊startPercent/100·len⌋, ⌊endPercent/100·len⌋)`; when that range
is empty the division is `0/0 = NaN`. -/
def getFrequencyLevelJS (frequencyData : List ℚ) (startPercent endPercent : ℚ) :
    JSVal :=
  let len : ℕ := frequencyData.length
  let startIndex : ℕ := (⌊startPercent / 100 * len⌋).toNat
  let endIndex : ℕ := (⌊endPercent / 100 * len⌋).toNat
  let sum : JSVal := (List.range (endIndex - startIndex)).foldl
    (fun s i => JSVal.add s (JSVal.abs (JSVal.num
      (frequencyData.getD (startIndex + i) 0)))) (JSVal.num 0)
  JSVal.div sum (JSVal.num ((endIndex : ℚ) - (startIndex : ℚ)))

/-- A velocity vector whose components are JavaScript numbers. -/
structure JSVec3 where
  x : JSVal
  y : JSVal
  z : JSVal
deriving DecidableEq, Repr

/-- `MarblePhysics.applyAudioInfluence` (part_000 lines 218-234) under
JavaScript number semantics, acting on the marble's velocity; the two
`Math.random()` draws are the parameters `r1`, `r2`. -/
def applyAudioInfluenceJS (r1 r2 : ℚ) (frequencyData : List ℚ)
    (v : JSVec3) : JSVec3 :=
  let bassLevel := getFrequencyLevelJS frequencyData 0 10
  let midLevel := getFrequencyLevelJS frequencyData 10 50
  let trebleLevel := getFrequencyLevelJS frequencyData 50 100
  let vx := JSVal.add v.x (JSVal.mul (JSVal.mul (JSVal.num (r1 - 1/2)) bassLevel)
    (JSVal.num (1/10)))
  let vy := if JSVal.lt (JSVal.num (3/10)) midLevel
    then JSVal.add v.y (JSVal.mul midLevel (JSVal.num (1/2))) else v.y
  let vz := JSVal.add v.z (JSVal.mul (JSVal.mul (JSVal.num (r2 - 1/2)) trebleLevel)
    (JSVal.num (5/100)))
  ⟨vx, vy, vz⟩

/-- NaN absorbs further JavaScript multiplications. -/
theorem JSVal.mul_nan_left (b : JSVal) : JSVal.mul JSVal.nan b = JSVal.nan := by
  cases b <;> rfl

/-- NaN absorbs further JavaScript additions. -/
theorem JSVal.add_nan_right (a : JSVal) : JSVal.add a JSVal.nan = JSVal.nan := by
  cases a <;> rfl

/-- Claim C10: if the frequency buffer is shorter than 10 entries (in
particular the empty buffer of the extractor's failure vector), the bass
band of `getFrequencyLevel` has `endIndex = startIndex = 0`, its
division is `0/0 = NaN`, and `applyAudioInfluence` adds that NaN into
the marble's velocity: the `x` component (and for the empty buffer also
the `z` component) becomes NaN, so the band level is not a non-negative
real on such inputs. -/
theorem short_buffer_band_level_is_nan (data : List ℚ) (hlen : data.length < 10) :
    ((⌊(0:ℚ) / 100 * (data.length : ℚ)⌋).toNat = 0 ∧
     (⌊(10:ℚ) / 100 * (data.length : ℚ)⌋).toNat = 0) ∧
    getFrequencyLevelJS data 0 10 = JSVal.nan ∧
    (∀ r1 r2 : ℚ, ∀ vx vy vz : ℚ,
      (applyAudioInfluenceJS r1 r2 data ⟨JSVal.num vx, JSVal.num vy, JSVal.num vz⟩).x
        = JSVal.nan) ∧
    (data = [] → ∀ r1 r2 : ℚ, ∀ vx vy vz : ℚ,
      (applyAudioInfluenceJS r1 r2 data ⟨JSVal.num vx, JSVal.num vy, JSVal.num vz⟩).z
        = JSVal.nan) := by
  have hs : (⌊(0:ℚ) / 100 * (data.length : ℚ)⌋).toNat = 0 := by
    norm_num
  have he : (⌊(10:ℚ) / 100 * (data.length : ℚ)⌋).toNat = 0 := by
    have h1 : (0:ℚ) ≤ (10:ℚ) / 100 * (data.length : ℚ) := by positivity
    have h2 : (10:ℚ) / 100 * (data.length : ℚ) < 1 := by
      have : (data.length : ℚ) < 10 := by exact_mod_cast hlen
      linarith
    have : ⌊(10:ℚ) / 100 * (data.length : ℚ)⌋ = 0 :=
      Int.floor_eq_zero_iff.mpr ⟨h1, h2⟩
    simp [this]
  have hbass : getFrequencyLevelJS data 0 10 = JSVal.nan := by
    simp only [getFrequencyLevelJS, hs, he]
    simp [JSVal.div]
  refine ⟨⟨hs, he⟩, hbass, ?_, ?_⟩
  · intro r1 r2 vx vy vz
    simp only [applyAudioInfluenceJS, hbass, JSVal.mul_nan_left,
      JSVal.add_nan_right]
    rw [show JSVal.mul (JSVal.num (r1 - 1/2)) JSVal.nan = JSVal.nan from rfl]
    rw [JSVal.mul_nan_left, JSVal.add_nan_right]
  · intro hdata r1 r2 vx vy vz
    subst hdata
    have htre : getFrequencyLevelJS [] 50 100 = JSVal.nan := by
      simp [getFrequencyLevelJS, JSVal.div]
    simp only [applyAudioInfluenceJS, htre]
    rw [show JSVal.mul (JSVal.num (r2 - 1/2)) JSVal.nan = JSVal.nan from rfl]
    rw [JSVal.mul_nan_left, JSVal.add_nan_right]

/-- Witness for `short_buffer_band_level_is_nan` at the empty buffer
(the failure FeatureVector's `frequencyData`) and a concrete velocity. -/
theorem short_buffer_band_level_is_nan_witness :
    getFrequencyLevelJS [] 0 10 = JSVal.nan ∧
    (applyAudioInfluenceJS 1 0 []
       ⟨JSVal.num 2, JSVal.num (-3), JSVal.num 4⟩).x = JSVal.nan ∧
    (applyAudioInfluenceJS 1 0 []
       ⟨JSVal.num 2, JSVal.num (-3), JSVal.num 4⟩).z = JSVal.nan := by
  have h := short_buffer_band_level_is_nan [] (by decide)
  exact ⟨h.2.1, h.2.2.1 1 0 2 (-3) 4, h.2.2.2 rfl 1 0 2 (-3) 4⟩

/-! ## MarblePhysics: audio influence and integration -/

/-- The optional audio argument of `MarblePhysics.update`. -/
structure AudioInput where
  frequencyData : List ℚ
  volume : ℚ
deriving DecidableEq, Repr

/-- `MarblePhysics.getFrequencyLevel` over exact rationals.  An empty
index range yields the junk value `0` here where JavaScript yields NaN;
`getFrequencyLevelJS` models that case faithfully. -/
def getFrequencyLevel (frequencyData : List ℚ) (startPercent endPercent : ℚ) : ℚ :=
  let len : ℕ := frequencyData.length
  let startIndex : ℕ := (⌊startPercent / 100 * len⌋).toNat
  let endIndex : ℕ := (⌊endPercent / 100 * len⌋).toNat
  let sum : ℚ := ((List.range (endIndex - startIndex)).map
    (fun i => |frequencyData.getD (startIndex + i) 0|)).sum
  sum / ((endIndex : ℚ) - (startIndex : ℚ))

/-- `MarblePhysics.applyAudioInfluence` (part_000 lines 218-234): bass
perturbs `velocity.x`, mid above `0.3` pushes `velocity.y` up, treble
perturbs `velocity.z`; `r1`, `r2` are the two `Math.random()` draws. -/
def applyAudioInfluence (r1 r2 : ℚ) (audio : AudioInput) (m : MarbleState) :
    MarbleState :=
  let bassLevel := getFrequencyLevel audio.frequencyData 0 10
  let midLevel := getFrequencyLevel audio.frequencyData 10 50
  let trebleLevel := getFrequencyLevel audio.frequencyData 50 100
  let v1 : Vec3 := { m.velocity with x := m.velocity.x + (r1 - 1/2) * bassLevel * (1/10) }
  let v2 : Vec3 := if midLevel > 3/10 then { v1 with y := v1.y + midLevel * (1/2) } else v1
  let v3 : Vec3 := { v2 with z := v2.z + (r2 - 1/2) * trebleLevel * (5/100) }
  { m with velocity := v3 }

/-- The per-marble integration portion of `MarblePhysics.update` (lines
166-177): gravity reset, optional audio influence, then semi-implicit
Euler with per-step damping: `v += a·dt`, `v *= 0.98`, `p += v·dt`. -/
def integrateMarble (dt r1 r2 : ℚ) (audio : Option AudioInput) (m : MarbleState) :
    MarbleState :=
  let m1 := { m with acceleration := gravity }
  let m2 := match audio with
    | some a => applyAudioInfluence r1 r2 a m1
    | none => m1
  let v := Vec3.smul friction (Vec3.add m2.velocity (Vec3.smul dt m2.acceleration))
  let p := Vec3.add m2.position (Vec3.smul dt v)
  { m2 with velocity := v, position := p }

/-- Without audio, one integration damps the gravity-updated vertical
velocity by `0.98`. -/
theorem integrate_none_velocity_y (dt r1 r2 : ℚ) (m : MarbleState) :
    (integrateMarble dt r1 r2 none m).velocity.y
      = friction * (m.velocity.y + dt * gravity.y) := rfl

/-- A marble dropped with zero velocity, used as a concrete test input. -/
def droppedMarble : MarbleState :=
  { position := ⟨0, 100, 0⟩
    velocity := ⟨0, 0, 0⟩
    acceleration := ⟨0, 0, 0⟩
    radius := 3/10
    mass := 1
    bounceCount := 0
    isActive := true }

/-- Claim C5 (counterexample): after `n = 2` gravity-only steps at
`dt = 1` from rest, the code's vertical velocity is
`0.98·(0.98·(-9.8) - 9.8) = -19.01592`, not the claimed
`-9.8·t·0.98^n = -9.8·2·0.98² = -18.82384`. -/
theorem gravity_closed_form_claim_false :
    ((integrateMarble 1 0 0 none)^[2] droppedMarble).velocity.y
      ≠ -(49/5) * ((2:ℚ) * 1) * (49/50)^2 := by
  have e : (integrateMarble 1 0 0 none)^[2] droppedMarble
      = integrateMarble 1 0 0 none (integrateMarble 1 0 0 none droppedMarble) := rfl
  rw [e, integrate_none_velocity_y, integrate_none_velocity_y]
  have hd : droppedMarble.velocity.y = 0 := rfl
  rw [hd]
  norm_num [friction, gravity]

/-- Claim C5 (amended): each gravity-only integration step performs
exactly `v' = (v + a·dt)·0.98` with `a = (0,-9.8,0)` followed by
`p' = p + v'·dt`, and consequently a marble with zero initial vertical
velocity has, after `n` such steps, vertical velocity
`-9.8·dt·Σ_{k<n} 0.98^(k+1)` — the per-step damped accumulation of the
discrete recurrence, not `-9.8·t·0.98^n`. -/
theorem gravity_integration_recurrence (dt r1 r2 : ℚ) (m : MarbleState) (n : ℕ)
    (h : m.velocity.y = 0) :
    ((integrateMarble dt r1 r2 none m).velocity
        = Vec3.smul friction (Vec3.add m.velocity (Vec3.smul dt gravity)) ∧
     (integrateMarble dt r1 r2 none m).position
        = Vec3.add m.position
            (Vec3.smul dt ((integrateMarble dt r1 r2 none m).velocity))) ∧
    ((integrateMarble dt r1 r2 none)^[n] m).velocity.y
        = -(49/5) * dt * ((List.range n).map (fun k => (49/50 : ℚ)^(k+1))).sum := by
  refine ⟨⟨rfl, rfl⟩, ?_⟩
  induction n with
  | zero =>
    simp [Function.iterate_zero, h]
  | succ n ih =>
    rw [Function.iterate_succ_apply', integrate_none_velocity_y, ih,
      List.range_succ_eq_map]
    have hmap : ((List.range n).map Nat.succ).map (fun k => (49/50 : ℚ)^(k+1))
        = (List.range n).map (fun k => (49/50 : ℚ) * (49/50 : ℚ)^(k+1)) := by
      rw [List.map_map]
      apply List.map_congr_left
      intro k _
      simp [Function.comp, pow_succ]
      ring
    rw [List.map_cons, List.sum_cons, hmap, List.sum_map_mul_left]
    simp only [friction, gravity]
    ring

/-- Witness for `gravity_integration_recurrence` at `dt = 1`, `n = 2`,
from the concrete rest marble. -/
theorem gravity_integration_recurrence_witness :
    droppedMarble.velocity.y = 0 ∧
    ((integrateMarble 1 0 0 none)^[2] droppedMarble).velocity.y
      = -(49/5) * 1 * ((List.range 2).map (fun k => (49/50 : ℚ)^(k+1))).sum :=
  ⟨rfl, (gravity_integration_recurrence 1 0 0 droppedMarble 2 rfl).2⟩

/-! ## AnimationEngine: effect resources and per-frame effect updates

Three.js objects are modelled by `Object3D` (the fields the engine reads
or writes); the geometry produced by the external three.js constructors
(`PlaneGeometry`, `IcosahedronGeometry`, `SphereGeometry`) is supplied
by a `ThreeEnv` parameter; `Math.random()` draws are explicit streams,
`Math.sin` a function parameter, `Date.now()` the `nowMs` argument, and
the `gsap` scale pulse of the geometric effect is recorded by a counter. -/

/-- The closed `type` union of the `AnimationEffect` interface. -/
inductive EffectType
  | marble
  | wave
  | particle
  | geometric
  | fluid
  | neural
deriving DecidableEq, Repr

/-- The `AnimationEffect` record of the shared types module. -/
structure AnimationEffect where
  id : String
  name : String
  type : EffectType
  intensity : ℚ
  color : String
  speed : ℚ
  size : ℚ
deriving DecidableEq, Repr

/-- Observable state of a three.js object held in the engine's effect
map: instance kind, geometry attributes, rotation, pulse count and
shader uniforms. -/
structure Object3D where
  isMesh : Bool
  isPoints : Bool
  verts : List Vec3
  colors : List Vec3
  rotX : ℚ
  rotY : ℚ
  pulses : ℕ
  hasUniforms : Bool
  uTime : ℚ
  uIntensity : ℚ
  uVolume : ℚ
deriving DecidableEq, Repr

/-- A fresh object with no geometry and neutral transforms. -/
def baseObject : Object3D :=
  { isMesh := false
    isPoints := false
    verts := []
    colors := []
    rotX := 0
    rotY := 0
    pulses := 0
    hasUniforms := false
    uTime := 0
    uIntensity := 0
    uVolume := 0 }

/-- Geometry produced by the external three.js constructors the engine
calls with fixed arguments: `PlaneGeometry(10,10,50,50)`,
`IcosahedronGeometry(size,0)`, `SphereGeometry(size,32,32)`. -/
structure ThreeEnv where
  planeVerts : List Vec3
  icosahedronVerts : ℚ → List Vec3
  sphereVerts : ℚ → List Vec3

/-- `AnimationEngine.createWaveEffect`: a wireframe plane mesh. -/
def createWaveEffect (env : ThreeEnv) (_e : AnimationEffect) : Object3D :=
  { baseObject with isMesh := true, verts := env.planeVerts }

/-- `AnimationEngine.createParticleEffect`: `size·1000` random points
with random colors (`rp`/`rc` are the `Math.random()` draws). -/
def createParticleEffect (rp rc : ℕ → ℚ × ℚ × ℚ) (e : AnimationEffect) : Object3D :=
  let particleCount : ℕ := (⌈e.size * 1000⌉).toNat
  { baseObject with
    isPoints := true
    verts := (List.range particleCount).map (fun i =>
      Vec3.smul 20 ⟨(rp i).1 - 1/2, ((rp i).2.1 - 1/2), ((rp i).2.2 - 1/2)⟩)
    colors := (List.range particleCount).map (fun i =>
      ⟨(rc i).1, (rc i).2.1, (rc i).2.2⟩) }

/-- `AnimationEngine.createGeometricEffect`: an icosahedron mesh. -/
def createGeometricEffect (env : ThreeEnv) (e : AnimationEffect) : Object3D :=
  { baseObject with isMesh := true, verts := env.icosahedronVerts e.size }

/-- `AnimationEngine.createFluidEffect`: a sphere mesh with a
`ShaderMaterial` whose uniforms start at zero. -/
def createFluidEffect (env : ThreeEnv) (e : AnimationEffect) : Object3D :=
  { baseObject with
    isMesh := true
    verts := env.sphereVerts e.size
    hasUniforms := true }

/-- `AnimationEngine.createNeuralEffect`: 50 random points (note: a
`THREE.Points`, not a `THREE.Mesh`). -/
def createNeuralEffect (rn : ℕ → ℚ × ℚ × ℚ) (_e : AnimationEffect) : Object3D :=
  { baseObject with
    isPoints := true
    verts := (List.range 50).map (fun i =>
      Vec3.smul 10 ⟨(rn i).1 - 1/2, ((rn i).2.1 - 1/2), ((rn i).2.2 - 1/2)⟩) }

/-- The engine's `effects: Map<string, THREE.Object3D>` as an
insertion-ordered association list. -/
abbrev EffectsMap : Type := List (String × Object3D)

/-- JavaScript `Map.get`. -/
def mapGet (m : EffectsMap) (k : String) : Option Object3D :=
  (m.find? (fun p => decide (p.1 = k))).map (fun p => p.2)

/-- JavaScript `Map.set`: overwrite an existing key, else append. -/
def mapSet (m : EffectsMap) (k : String) (v : Object3D) : EffectsMap :=
  if m.any (fun p => decide (p.1 = k)) then
    m.map (fun p => if p.1 = k then (k, v) else p)
  else m ++ [(k, v)]

/-- JavaScript `Map.delete`. -/
def mapDelete (m : EffectsMap) (k : String) : EffectsMap :=
  m.filter (fun p => decide (¬ p.1 = k))

/-- `AnimationEngine.addEffect` (lines 219-247): build the variant's
resource and store it under the instance id; the marble variant is a
no-op (owned by `MarblePhysics`). -/
def addEffect (env : ThreeEnv) (rp rc rn : ℕ → ℚ × ℚ × ℚ)
    (e : AnimationEffect) (m : EffectsMap) : EffectsMap :=
  match e.type with
  | EffectType.marble => m
  | EffectType.wave => mapSet m e.id (createWaveEffect env e)
  | EffectType.particle => mapSet m e.id (createParticleEffect rp rc e)
  | EffectType.geometric => mapSet m e.id (createGeometricEffect env e)
  | EffectType.fluid => mapSet m e.id (createFluidEffect env e)
  | EffectType.neural => mapSet m e.id (createNeuralEffect rn e)

/-- `AnimationEngine.removeEffect` (lines 369-381): detach the mapped
resource if present; additionally, when the configured effect with that
id is of the marble variant, instruct `MarblePhysics` to clear all
marbles (returned as the boolean flag). -/
def removeEffect (config : List AnimationEffect) (id : String) (m : EffectsMap) :
    EffectsMap × Bool :=
  let m2 := match mapGet m id with
    | some _ => mapDelete m id
    | none => m
  let clearMarbles := match config.find? (fun ec => decide (ec.id = id)) with
    | some ec => decide (ec.type = EffectType.marble)
    | none => false
  (m2, clearMarbles)

/-- `AnimationEngine.updateWaveEffect` (lines 121-138): on a mesh, add
`sin(x·0.1 + Date.now()·0.001)·bassLevel·2` to each vertex's third
coordinate. -/
def updateWaveEffect (sinFn : ℚ → ℚ) (nowMs bassLevel : ℚ) (obj : Object3D) :
    Object3D :=
  if obj.isMesh then
    { obj with verts := obj.verts.map (fun v =>
        ⟨v.x, v.y, v.z + sinFn (v.x * (1/10) + nowMs * (1/1000)) * bassLevel * 2⟩) }
  else obj

/-- `AnimationEngine.updateParticleEffect` (lines 140-161): on a point
cloud, jitter each point's `y` by `(random-0.5)·(volume·10)·0.1`; on a
beat, re-randomize every color. -/
def updateParticleEffect (rj : ℕ → ℚ) (rc : ℕ → ℚ × ℚ × ℚ)
    (volume : ℚ) (beat : Bool) (obj : Object3D) : Object3D :=
  if obj.isPoints then
    { obj with
      verts := obj.verts.enum.map (fun p =>
        ⟨p.2.x, p.2.y + (rj p.1 - 1/2) * (volume * 10) * (1/10), p.2.z⟩)
      colors := if beat then
          obj.colors.enum.map (fun p => ⟨(rc p.1).1, (rc p.1).2.1, (rc p.1).2.2⟩)
        else obj.colors }
  else obj

/-- `AnimationEngine.updateGeometricEffect` (lines 163-188): on a mesh,
rotate with the treble level; on a beat, trigger one gsap scale pulse
(recorded by the counter). -/
def updateGeometricEffect (trebleLevel : ℚ) (beat : Bool) (obj : Object3D) :
    Object3D :=
  if obj.isMesh then
    { obj with
      rotX := obj.rotX + trebleLevel * (1/10)
      rotY := obj.rotY + trebleLevel * (5/100)
      pulses := if beat then obj.pulses + 1 else obj.pulses }
  else obj

/-- `AnimationEngine.updateFluidEffect` (lines 190-199): on a mesh with
shader uniforms, publish `time`, `intensity = midLevel` and `volume`. -/
def updateFluidEffect (nowMs midLevel volume : ℚ) (obj : Object3D) : Object3D :=
  if obj.isMesh then
    (if obj.hasUniforms then
      { obj with uTime := nowMs * (1/1000), uIntensity := midLevel,
                 uVolume := volume }
    else obj)
  else obj

/-- `AnimationEngine.updateNeuralEffect` (lines 201-217): on a mesh, set
each node's third coordinate to `sin(index·0.1 + t)·(bass+treble)`.
The neural resource built by `createNeuralEffect` is a `THREE.Points`,
so this guard never fires for it. -/
def updateNeuralEffect (sinFn : ℚ → ℚ) (nowMs bassLevel trebleLevel : ℚ)
    (obj : Object3D) : Object3D :=
  if obj.isMesh then
    { obj with verts := obj.verts.enum.map (fun p =>
        ⟨p.2.x, p.2.y,
         sinFn ((p.1 : ℚ) * (1/10) + nowMs * (1/1000)) * (bassLevel + trebleLevel)⟩) }
  else obj

/-- `AnimationEngine.updateEffect` (lines 97-119): dispatch on the map
key `id` — the string under which the resource was stored. -/
def updateEffect (sinFn : ℚ → ℚ) (rj : ℕ → ℚ) (rc : ℕ → ℚ × ℚ × ℚ)
    (nowMs : ℚ) (audio : AudioData) (id : String) (obj : Object3D) : Object3D :=
  if id = "wave" then updateWaveEffect sinFn nowMs audio.bassLevel obj
  else if id = "particle" then
    updateParticleEffect rj rc audio.volume audio.beat obj
  else if id = "geometric" then
    updateGeometricEffect audio.trebleLevel audio.beat obj
  else if id = "fluid" then updateFluidEffect nowMs audio.midLevel audio.volume obj
  else if id = "neural" then
    updateNeuralEffect sinFn nowMs audio.bassLevel audio.trebleLevel obj
  else obj

/-- `AnimationEngine.updateEffects` (lines 89-95): skip when no audio
data has been published, else update every stored resource in place. -/
def updateEffects (sinFn : ℚ → ℚ) (rj : ℕ → ℚ) (rc : ℕ → ℚ × ℚ × ℚ)
    (nowMs : ℚ) (audio : Option AudioData) (m : EffectsMap) : EffectsMap :=
  match audio with
  | none => m
  | some a => m.map (fun p => (p.1, updateEffect sinFn rj rc nowMs a p.1 p.2))

/-- A `ThreeEnv` whose plane geometry is a single vertex at the origin. -/
def tinyEnv : ThreeEnv := ⟨[⟨0, 0, 0⟩], fun _ => [], fun _ => []⟩

/-- A wave-variant effect instance whose id is not the literal string
of its variant. -/
def waveEffectOtherId : AnimationEffect :=
  ⟨"wave-1", "Wave", EffectType.wave, 1, "#ff0000", 1, 1⟩

/-- An audio frame with a non-zero bass level. -/
def bassyAudio : AudioData := ⟨[], [], 1, 0, 0, 0, false⟩

/-- The map obtained by adding `waveEffectOtherId` to an empty engine. -/
def waveOtherIdMap : EffectsMap :=
  addEffect tinyEnv (fun _ => (0, 0, 0)) (fun _ => (0, 0, 0)) (fun _ => (0, 0, 0))
    waveEffectOtherId []

/-- Claim C2 (counterexample): a live wave-variant instance stored under
id `"wave-1"` receives no update at all — `updateEffects` returns the
map unchanged even though the wave perturbation (here with `sin = 1` and
`bassLevel = 1`) would move the grid vertex — because `updateEffect`
dispatches on the id string, not on the variant. -/
theorem effect_update_dispatch_claim_false :
    updateEffects (fun _ => 1) (fun _ => 0) (fun _ => (0, 0, 0)) 0
        (some bassyAudio) waveOtherIdMap = waveOtherIdMap ∧
    updateWaveEffect (fun _ => 1) 0 bassyAudio.bassLevel
        (createWaveEffect tinyEnv waveEffectOtherId)
      ≠ createWaveEffect tinyEnv waveEffectOtherId := by
  constructor
  · have hm : waveOtherIdMap
        = [("wave-1", createWaveEffect tinyEnv waveEffectOtherId)] := rfl
    rw [hm]
    simp only [updateEffects, List.map_cons, List.map_nil, updateEffect]
    rw [if_neg (by decide), if_neg (by decide), if_neg (by decide),
      if_neg (by decide), if_neg (by decide)]
  · simp only [updateWaveEffect, createWaveEffect, tinyEnv, baseObject,
      waveEffectOtherId, bassyAudio]
    simp only [if_pos]
    intro hcontra
    have hv := congrArg Object3D.verts hcontra
    simp only [List.map_cons, List.map_nil] at hv
    have hz := congrArg (fun l => (l.headD ⟨0, 0, 0⟩).z) hv
    norm_num at hz

/-- Claim C2 (amended): the per-frame effect update is dispatched by the
stored id string, not by the instance's variant.  An id equal to the
literal `"wave"` gets the wave grid perturbation
`z + sin(x·0.1 + t)·bassLevel·2` per vertex (when the resource is a
mesh); the ids `"particle"`, `"geometric"`, `"fluid"` and `"neural"`
get those variants' updates; every other id — including variant-typed
instances stored under any other id — is left completely unchanged. -/
theorem effect_update_dispatched_by_id (sinFn : ℚ → ℚ) (rj : ℕ → ℚ)
    (rc : ℕ → ℚ × ℚ × ℚ) (nowMs : ℚ) (audio : AudioData) (obj : Object3D) :
    ((updateEffect sinFn rj rc nowMs audio "wave" obj).verts
      = if obj.isMesh then
          obj.verts.map (fun v =>
            ⟨v.x, v.y, v.z + sinFn (v.x * (1/10) + nowMs * (1/1000))
               * audio.bassLevel * 2⟩)
        else obj.verts) ∧
    updateEffect sinFn rj rc nowMs audio "particle" obj
      = updateParticleEffect rj rc audio.volume audio.beat obj ∧
    updateEffect sinFn rj rc nowMs audio "geometric" obj
      = updateGeometricEffect audio.trebleLevel audio.beat obj ∧
    updateEffect sinFn rj rc nowMs audio "fluid" obj
      = updateFluidEffect nowMs audio.midLevel audio.volume obj ∧
    updateEffect sinFn rj rc nowMs audio "neural" obj
      = updateNeuralEffect sinFn nowMs audio.bassLevel audio.trebleLevel obj ∧
    (∀ id : String, id ≠ "wave" → id ≠ "particle" → id ≠ "geometric" →
      id ≠ "fluid" → id ≠ "neural" →
      updateEffect sinFn rj rc nowMs audio id obj = obj) := by
  refine ⟨?_, ?_, ?_, ?_, ?_, ?_⟩
  · show (updateWaveEffect sinFn nowMs audio.bassLevel obj).verts = _
    unfold updateWaveEffect
    by_cases hm : obj.isMesh <;> simp [hm]
  · show (if ("particle" : String) = "wave" then _ else _) = _
    rw [if_neg (by decide), if_pos rfl]
  · show (if ("geometric" : String) = "wave" then _ else _) = _
    rw [if_neg (by decide), if_neg (by decide), if_pos rfl]
  · show (if ("fluid" : String) = "wave" then _ else _) = _
    rw [if_neg (by decide), if_neg (by decide), if_neg (by decide), if_pos rfl]
  · show (if ("neural" : String) = "wave" then _ else _) = _
    rw [if_neg (by decide), if_neg (by decide), if_neg (by decide),
      if_neg (by decide), if_pos rfl]
  · intro id h1 h2 h3 h4 h5
    simp only [updateEffect, if_neg h1, if_neg h2, if_neg h3, if_neg h4,
      if_neg h5]

/-- Witness for `effect_update_dispatched_by_id`: the fall-through
branch applies at the concrete id `"burst"`. -/
theorem effect_update_dispatched_by_id_witness :
    updateEffect (fun _ => 1) (fun _ => 0) (fun _ => (0, 0, 0)) 0
      bassyAudio "burst" baseObject = baseObject := by
  have h := effect_update_dispatched_by_id (fun _ => 1) (fun _ => 0)
    (fun _ => (0, 0, 0)) 0 bassyAudio baseObject
  exact h.2.2.2.2.2 "burst" (by decide) (by decide) (by decide) (by decide)
    (by decide)

/-- Claim C8: adding any effect instance to an empty resource mapping and
immediately removing it by its id leaves the mapping empty (the marble
variant never enters the mapping at all), and removing an id that is not
present leaves the mapping untouched; both operations are total (no
error). -/
theorem effect_map_add_remove (env : ThreeEnv) (rp rc rn : ℕ → ℚ × ℚ × ℚ)
    (config : List AnimationEffect) (e : AnimationEffect) (id : String)
    (m : EffectsMap) :
    (removeEffect config e.id (addEffect env rp rc rn e [])).1 = [] ∧
    (mapGet m id = none → (removeEffect config id m).1 = m) := by
  constructor
  · cases htype : e.type <;>
      simp [removeEffect, addEffect, htype, mapSet, mapGet, mapDelete]
  · intro h
    simp [removeEffect, h]

/-- Witness for `effect_map_add_remove`: a concrete add/remove round
trip and a concrete removal of an absent id. -/
theorem effect_map_add_remove_witness :
    (removeEffect [] "w1"
      (addEffect tinyEnv (fun _ => (0, 0, 0)) (fun _ => (0, 0, 0))
        (fun _ => (0, 0, 0)) ⟨"w1", "Wave", EffectType.wave, 1, "#fff", 1, 1⟩
        [])).1 = [] ∧
    (removeEffect [] "nope" ([] : EffectsMap)).1 = [] := by
  refine ⟨(effect_map_add_remove tinyEnv (fun _ => (0, 0, 0)) (fun _ => (0, 0, 0))
    (fun _ => (0, 0, 0)) [] ⟨"w1", "Wave", EffectType.wave, 1, "#fff", 1, 1⟩
    "w1" []).1, ?_⟩
  exact (effect_map_add_remove tinyEnv (fun _ => (0, 0, 0)) (fun _ => (0, 0, 0))
    (fun _ => (0, 0, 0)) [] ⟨"w1", "Wave", EffectType.wave, 1, "#fff", 1, 1⟩
    "nope" []).2 rfl

/-! ## MarblePhysics: the per-frame update loop

The marble array, key array and trail buffer are mutated in place by
`MarblePhysics.update`; the loop walks the marble indices from high to
low and splices out retired marbles.  Calls to
`xylophoneSynth.playNote` are recorded in an event log.  The
`Math.random()` draws are explicit streams: `randA i` gives the two
draws of `applyAudioInfluence` for the marble at index `i`, and
`randK i j` the draw of `handleKeyCollision` for marble index `i` at
key index `j`.  The marble/key meshes, the hit-particle burst and the
trail polyline are render-side resources mirroring this state. -/

/-- Observable state of a `MarblePhysics` instance. -/
structure PhysicsState where
  marbles : List MarbleState
  keys : List XylophoneKey
  trailPoints : List Vec3
  notesPlayed : List (ℚ × ℚ)
deriving DecidableEq, Repr

/-- `MarblePhysics.playNote` (lines 323-330): the strike velocity is
`min(1, |v|/10)` where `v` is the current vertical velocity of the
LAST marble of the array
(`this.marbles[this.marbles.length - 1]?.velocity.y || 0`). -/
def playNoteVelocity (marbles : List MarbleState) : ℚ :=
  min 1 (|((marbles.getLast?).map (fun m => m.velocity.y)).getD 0| / 10)

/-- The marble part of `MarblePhysics.handleKeyCollision` (lines
266-284): reflect the vertical velocity with damping `0.7`, rest on the
key's top surface plus the radius, add a random horizontal perturbation
(`r` is the `Math.random()` draw), and count the bounce. -/
def bounceMarble (r : ℚ) (m : MarbleState) (k : XylophoneKey) : MarbleState :=
  let v1 : Vec3 := { m.velocity with y := |m.velocity.y| * bounceDamping }
  let p1 : Vec3 := { m.position with y := k.position.y + k.height / 2 + m.radius }
  let v2 : Vec3 := { v1 with x := v1.x + (r - 1/2) * 2 }
  { m with velocity := v2, position := p1, bounceCount := m.bounceCount + 1 }

/-- One key test of the `checkKeyCollisions` loop for the marble at
index `i` (lines 249-264).  On overlap, `handleKeyCollision` runs:
the marble is bounced in place, the key is marked hit, and `playNote`
is logged with the velocity read from the mutated marble array. -/
def checkStep (now : ℚ) (rand : ℕ → ℚ) (i : ℕ) (st : PhysicsState) (j : ℕ) :
    PhysicsState :=
  match st.marbles[i]?, st.keys[j]? with
  | some m, some k =>
    if collides m k then
      let marbles2 := st.marbles.set i (bounceMarble (rand j) m k)
      { st with
        marbles := marbles2
        keys := st.keys.set j { k with isHit := true, hitTime := now }
        notesPlayed := st.notesPlayed ++ [(k.frequency, playNoteVelocity marbles2)] }
    else st
  | _, _ => st

/-- The `checkKeyCollisions` loop over a list of key indices. -/
def checkKeysAux (now : ℚ) (rand : ℕ → ℚ) (i : ℕ) :
    List ℕ → PhysicsState → PhysicsState
  | [], st => st
  | j :: js, st => checkKeysAux now rand i js (checkStep now rand i st j)

/-- `MarblePhysics.checkKeyCollisions` for the marble at index `i`:
every key index in order. -/
def checkKeyCollisions (now : ℚ) (rand : ℕ → ℚ) (i : ℕ) (st : PhysicsState) :
    PhysicsState :=
  checkKeysAux now rand i (List.range st.keys.length) st

/-- The body of the `update` marble loop for index `i` (lines 162-204):
skip inactive marbles; integrate, run the key collision loop, push the
post-collision position on the trail (bounded FIFO of capacity 100),
and splice the marble out if `position.y < -10`. -/
def processMarble (dt now : ℚ) (randA : ℕ → ℚ × ℚ) (randK : ℕ → ℕ → ℚ)
    (audio : Option AudioInput) (st : PhysicsState) (i : ℕ) : PhysicsState :=
  match st.marbles[i]? with
  | none => st
  | some m =>
    if m.isActive then
      let m1 := integrateMarble dt (randA i).1 (randA i).2 audio m
      let st1 : PhysicsState := { st with marbles := st.marbles.set i m1 }
      let st2 := checkKeyCollisions now (randK i) i st1
      let m2 := st2.marbles[i]?.getD m1
      let trail1 := st2.trailPoints ++ [m2.position]
      let trail2 := if 100 < trail1.length then trail1.drop 1 else trail1
      let st3 : PhysicsState := { st2 with trailPoints := trail2 }
      if m2.position.y < -10 then
        { st3 with marbles := st3.marbles.eraseIdx i }
      else st3
    else st

/-- The `update` marble loop, iterating the indices from high to low
(`for (let i = this.marbles.length - 1; i >= 0; i--)`). -/
def updateLoop (dt now : ℚ) (randA : ℕ → ℚ × ℚ) (randK : ℕ → ℕ → ℚ)
    (audio : Option AudioInput) (st : PhysicsState) : ℕ → PhysicsState
  | 0 => processMarble dt now randA randK audio st 0
  | i + 1 => updateLoop dt now randA randK audio
      (processMarble dt now randA randK audio st (i + 1)) i

/-- `MarblePhysics.updateKeyAnimations` (lines 346-369): 500 ms after a
strike the key's hit flag resets (scale and emissive changes are
render-side). -/
def updateKeyAnimations (now : ℚ) (st : PhysicsState) : PhysicsState :=
  { st with keys := st.keys.map (fun k =>
      if k.isHit && decide (500 < now - k.hitTime) then { k with isHit := false }
      else k) }

/-- `MarblePhysics.update` (lines 160-216): the marble loop followed by
the key animations (the trail rebuild and debug logging touch no
simulation state). -/
def update (dt now : ℚ) (randA : ℕ → ℚ × ℚ) (randK : ℕ → ℕ → ℚ)
    (audio : Option AudioInput) (st : PhysicsState) : PhysicsState :=
  updateKeyAnimations now
    (updateLoop dt now randA randK audio st (st.marbles.length - 1))

/-- Keys equal in every field that collision handling reads; only the
render-transient `isHit`/`hitTime` may differ. -/
def sameGeom (k k2 : XylophoneKey) : Prop :=
  k.position = k2.position ∧ k.width = k2.width ∧ k.height = k2.height ∧
  k.depth = k2.depth ∧ k.note = k2.note ∧ k.frequency = k2.frequency ∧
  k.color = k2.color

/-- One marble's trajectory through the key loop, with the key list held
fixed (legitimate because collision handling never changes a key's
geometry). -/
def marbleKeyFold (rand : ℕ → ℚ) (keys : List XylophoneKey) :
    List ℕ → MarbleState → MarbleState
  | [], m => m
  | j :: js, m =>
    marbleKeyFold rand keys js
      (match keys[j]? with
       | some k => if collides m k then bounceMarble (rand j) m k else m
       | none => m)

/-- The complete step applied to one marble: integration followed by the
key collision loop. -/
def stepMarble (dt r1 r2 : ℚ) (randK : ℕ → ℚ) (audio : Option AudioInput)
    (keys : List XylophoneKey) (m : MarbleState) : MarbleState :=
  marbleKeyFold randK keys (List.range keys.length)
    (integrateMarble dt r1 r2 audio m)

/-- The marbles surviving one `update` call, in order, starting from
array index `p`: a marble is retired exactly when its post-integration
vertical position is below the floor `-10`; all others appear stepped by
`stepMarble`. -/
def survivorsFrom (dt : ℚ) (randA : ℕ → ℚ × ℚ) (randK : ℕ → ℕ → ℚ)
    (audio : Option AudioInput) (keys : List XylophoneKey) :
    ℕ → List MarbleState → List MarbleState
  | _, [] => []
  | p, m :: ms =>
    if (integrateMarble dt (randA p).1 (randA p).2 audio m).position.y < -10 then
      survivorsFrom dt randA randK audio keys (p + 1) ms
    else
      stepMarble dt (randA p).1 (randA p).2 (randK p) audio keys m ::
        survivorsFrom dt randA randK audio keys (p + 1) ms

/-- The number of marbles retired by one `update` call, starting from
array index `p`. -/
def retiredCountFrom (dt : ℚ) (randA : ℕ → ℚ × ℚ) (audio : Option AudioInput) :
    ℕ → List MarbleState → ℕ
  | _, [] => 0
  | p, m :: ms =>
    (if (integrateMarble dt (randA p).1 (randA p).2 audio m).position.y < -10
     then 1 else 0) + retiredCountFrom dt randA audio (p + 1) ms

/-! ### List helpers -/

/-- Writing back the element already stored at an index is a no-op. -/
theorem set_getElem?_self {α : Type} :
    ∀ (l : List α) (i : ℕ) (a : α), l[i]? = some a → l.set i a = l
  | [], i, a, h => by simp at h
  | x :: xs, 0, a, h => by
    simp only [List.getElem?_cons_zero, Option.some.injEq] at h
    rw [List.set_cons_zero, h]
  | x :: xs, i + 1, a, h => by
    simp only [List.getElem?_cons_succ] at h
    rw [List.set_cons_succ, set_getElem?_self xs i a h]

/-- Erasing an index discards a prior write at that index. -/
theorem eraseIdx_set_self {α : Type} :
    ∀ (l : List α) (i : ℕ) (a : α), (l.set i a).eraseIdx i = l.eraseIdx i
  | [], _, _ => by simp
  | _ :: _, 0, _ => by simp
  | x :: xs, i + 1, a => by
    rw [List.set_cons_succ, List.eraseIdx_cons_succ, List.eraseIdx_cons_succ,
      eraseIdx_set_self xs i a]

/-! ### Geometry-preservation of the key array -/

/-- The collision test reads only key geometry. -/
theorem collides_congr {k k2 : XylophoneKey} (h : sameGeom k k2) (m : MarbleState) :
    collides m k = collides m k2 := by
  rcases h with ⟨hp, hw, hh, _, _, _, _⟩
  simp only [collides, hp, hw, hh]

/-- The bounce response reads only key geometry. -/
theorem bounceMarble_congr {k k2 : XylophoneKey} (h : sameGeom k k2)
    (r : ℚ) (m : MarbleState) : bounceMarble r m k = bounceMarble r m k2 := by
  rcases h with ⟨hp, hw, hh, _, _, _, _⟩
  simp only [bounceMarble, hp, hh]

/-- A geometry-related right lookup has a geometry-related left partner. -/
theorem forall₂_getElem?_right {R : XylophoneKey → XylophoneKey → Prop} :
    ∀ {l1 l2 : List XylophoneKey}, List.Forall₂ R l1 l2 →
      ∀ (j : ℕ) (k : XylophoneKey), l2[j]? = some k →
        ∃ k0, l1[j]? = some k0 ∧ R k0 k := by
  intro l1 l2 h
  induction h with
  | nil => intro j k hk; simp at hk
  | cons hr _ ih =>
    intro j k hk
    cases j with
    | zero =>
      simp only [List.getElem?_cons_zero, Option.some.injEq] at hk
      exact ⟨_, by simp, hk ▸ hr⟩
    | succ j =>
      simp only [List.getElem?_cons_succ] at hk
      rcases ih j k hk with ⟨k0, hk0, hrel⟩
      exact ⟨k0, by simpa using hk0, hrel⟩

/-- Setting a related value on the right preserves `Forall₂`. -/
theorem forall₂_set_right {R : XylophoneKey → XylophoneKey → Prop} :
    ∀ {l1 l2 : List XylophoneKey}, List.Forall₂ R l1 l2 →
      ∀ (j : ℕ) (v : XylophoneKey),
        (∀ k0, l1[j]? = some k0 → R k0 v) → List.Forall₂ R l1 (l2.set j v) := by
  intro l1 l2 h
  induction h with
  | nil => intro j v _; simp
  | cons hr ht ih =>
    intro j v hv
    cases j with
    | zero =>
      rw [List.set_cons_zero]
      exact List.Forall₂.cons (hv _ (by simp)) ht
    | succ j =>
      rw [List.set_cons_succ]
      exact List.Forall₂.cons hr (ih j v (fun k0 hk0 => hv k0 (by simpa using hk0)))

/-- A right lookup past the end is mirrored on the left. -/
theorem forall₂_getElem?_none {R : XylophoneKey → XylophoneKey → Prop}
    {l1 l2 : List XylophoneKey} (h : List.Forall₂ R l1 l2) (j : ℕ)
    (hj : l2[j]? = none) : l1[j]? = none := by
  rw [List.getElem?_eq_none_iff] at hj ⊢
  rw [h.length_eq]
  exact hj

/-! ### The key loop acts on one marble -/

/-- Specification of the `checkKeyCollisions` loop: it rewrites the
marble at index `i` by `marbleKeyFold`, only touches the keys'
transient hit fields, and appends to the note log. -/
theorem checkKeysAux_spec (now : ℚ) (rand : ℕ → ℚ) (i : ℕ)
    (K0 : List XylophoneKey) (js : List ℕ) :
    ∀ (st : PhysicsState) (m : MarbleState),
      st.marbles[i]? = some m → List.Forall₂ sameGeom K0 st.keys →
      ∃ keys2 notes2,
        checkKeysAux now rand i js st =
          { marbles := st.marbles.set i (marbleKeyFold rand K0 js m)
            keys := keys2
            trailPoints := st.trailPoints
            notesPlayed := st.notesPlayed ++ notes2 } ∧
        List.Forall₂ sameGeom K0 keys2 := by
  induction js with
  | nil =>
    intro st m hm hk
    refine ⟨st.keys, [], ?_, hk⟩
    rw [show marbleKeyFold rand K0 [] m = m from rfl,
      set_getElem?_self _ _ _ hm, List.append_nil]
    rfl
  | cons j js ih =>
    intro st m hm hk
    have hstepeq : checkKeysAux now rand i (j :: js) st
        = checkKeysAux now rand i js (checkStep now rand i st j) := rfl
    rcases hkj : st.keys[j]? with _ | k
    · -- key index out of range: the step is a no-op
      have hk0j : K0[j]? = none := forall₂_getElem?_none hk j hkj
      have hstep : checkStep now rand i st j = st := by
        simp only [checkStep, hm, hkj]
      have hfold2 : marbleKeyFold rand K0 (j :: js) m = marbleKeyFold rand K0 js m := by
        show marbleKeyFold rand K0 js
            (match K0[j]? with
             | some k2 => if collides m k2 then bounceMarble (rand j) m k2 else m
             | none => m) = _
        rw [hk0j]
      rw [hstepeq, hstep, hfold2]
      exact ih st m hm hk
    · rcases forall₂_getElem?_right hk j k hkj with ⟨k0, hk0, hrel⟩
      by_cases hcol : collides m k = true
      · -- collision: bounce the marble, mark the key, log the note
        have hcol0 : collides m k0 = true := by
          rw [collides_congr hrel]; exact hcol
        have hilt : i < st.marbles.length := (List.getElem?_eq_some_iff.mp hm).1
        have hfold2 : marbleKeyFold rand K0 (j :: js) m
            = marbleKeyFold rand K0 js (bounceMarble (rand j) m k) := by
          show marbleKeyFold rand K0 js
              (match K0[j]? with
               | some k2 => if collides m k2 then bounceMarble (rand j) m k2 else m
               | none => m) = _
          rw [hk0]
          show marbleKeyFold rand K0 js
            (if collides m k0 then bounceMarble (rand j) m k0 else m) = _
          rw [if_pos hcol0, bounceMarble_congr hrel]
        have hstep : checkStep now rand i st j =
            { marbles := st.marbles.set i (bounceMarble (rand j) m k)
              keys := st.keys.set j { k with isHit := true, hitTime := now }
              trailPoints := st.trailPoints
              notesPlayed := st.notesPlayed ++
                [(k.frequency,
                  playNoteVelocity
                    (st.marbles.set i (bounceMarble (rand j) m k)))] } := by
          simp only [checkStep, hm, hkj, hcol, if_true]
        have hm2 : (st.marbles.set i (bounceMarble (rand j) m k))[i]?
            = some (bounceMarble (rand j) m k) :=
          List.getElem?_set_self (by simpa using hilt)
        have hk2 : List.Forall₂ sameGeom K0
            (st.keys.set j { k with isHit := true, hitTime := now }) := by
          refine forall₂_set_right hk j _ ?_
          intro k0' hk0'
          have hkk : k0' = k0 := by
            rw [hk0] at hk0'
            exact (Option.some.inj hk0').symm
          subst hkk
          rcases hrel with ⟨hp, hw, hh, hd, hn, hf, hc⟩
          exact ⟨hp, hw, hh, hd, hn, hf, hc⟩
        rcases ih
            { marbles := st.marbles.set i (bounceMarble (rand j) m k)
              keys := st.keys.set j { k with isHit := true, hitTime := now }
              trailPoints := st.trailPoints
              notesPlayed := st.notesPlayed ++
                [(k.frequency,
                  playNoteVelocity
                    (st.marbles.set i (bounceMarble (rand j) m k)))] }
            (bounceMarble (rand j) m k) hm2 hk2 with ⟨keys2, notes2, heq, hrel2⟩
        refine ⟨keys2,
          (k.frequency,
            playNoteVelocity (st.marbles.set i (bounceMarble (rand j) m k)))
            :: notes2, ?_, hrel2⟩
        rw [hstepeq, hstep, heq, hfold2]
        simp only [List.set_set, List.append_assoc, List.cons_append,
          List.nil_append]
      · -- no collision: the step is the identity
        have hcol0 : ¬ collides m k0 = true := by
          rw [collides_congr hrel]; exact hcol
        have hstep : checkStep now rand i st j = st := by
          simp only [checkStep, hm, hkj]
          rw [if_neg hcol]
        have hfold2 : marbleKeyFold rand K0 (j :: js) m = marbleKeyFold rand K0 js m := by
          show marbleKeyFold rand K0 js
              (match K0[j]? with
               | some k2 => if collides m k2 then bounceMarble (rand j) m k2 else m
               | none => m) = _
          rw [hk0]
          show marbleKeyFold rand K0 js
            (if collides m k0 then bounceMarble (rand j) m k0 else m) = _
          rw [if_neg hcol0]
        rw [hstepeq, hstep, hfold2]
        exact ih st m hm hk

/-- Specification of one body of the `update` marble loop: the marble at
index `i` is stepped by `stepMarble` and then either written back or —
when its resulting vertical position is below the floor `-10` — spliced
out of the array within the same call. -/
theorem processMarble_spec (dt now : ℚ) (randA : ℕ → ℚ × ℚ) (randK : ℕ → ℕ → ℚ)
    (audio : Option AudioInput) (K0 : List XylophoneKey)
    (st : PhysicsState) (i : ℕ) (m : MarbleState)
    (hm : st.marbles[i]? = some m) (hact : m.isActive = true)
    (hk : List.Forall₂ sameGeom K0 st.keys) :
    ∃ keys2 trail2 notes2,
      processMarble dt now randA randK audio st i =
        { marbles :=
            (if (stepMarble dt (randA i).1 (randA i).2 (randK i) audio K0
                  m).position.y < -10
             then st.marbles.eraseIdx i
             else st.marbles.set i
               (stepMarble dt (randA i).1 (randA i).2 (randK i) audio K0 m))
          keys := keys2
          trailPoints := trail2
          notesPlayed := notes2 } ∧
      List.Forall₂ sameGeom K0 keys2 := by
  have hilt : i < st.marbles.length := (List.getElem?_eq_some_iff.mp hm).1
  obtain ⟨keys2, notes2, heq, hrel2⟩ :=
    checkKeysAux_spec now (randK i) i K0 (List.range st.keys.length)
      { st with
        marbles :=
          st.marbles.set i (integrateMarble dt (randA i).1 (randA i).2 audio m) }
      (integrateMarble dt (randA i).1 (randA i).2 audio m)
      (List.getElem?_set_self (by simpa using hilt)) hk
  have hstep : marbleKeyFold (randK i) K0 (List.range st.keys.length)
      (integrateMarble dt (randA i).1 (randA i).2 audio m)
      = stepMarble dt (randA i).1 (randA i).2 (randK i) audio K0 m := by
    rw [← hk.length_eq]
    rfl
  have hF : (st.marbles.set i
        (stepMarble dt (randA i).1 (randA i).2 (randK i) audio K0 m))[i]?
      = some (stepMarble dt (randA i).1 (randA i).2 (randK i) audio K0 m) :=
    List.getElem?_set_self (by simpa using hilt)
  refine ⟨keys2,
    (if 100 < (st.trailPoints ++
        [(stepMarble dt (randA i).1 (randA i).2 (randK i) audio K0 m).position]).length
     then (st.trailPoints ++
        [(stepMarble dt (randA i).1 (randA i).2 (randK i) audio K0 m).position]).drop 1
     else st.trailPoints ++
        [(stepMarble dt (randA i).1 (randA i).2 (randK i) audio K0 m).position]),
    st.notesPlayed ++ notes2, ?_, hrel2⟩
  show processMarble dt now randA randK audio st i = _
  simp only [processMarble, hm, hact, if_true]
  rw [show checkKeyCollisions now (randK i) i
      { st with
        marbles :=
          st.marbles.set i (integrateMarble dt (randA i).1 (randA i).2 audio m) }
      = checkKeysAux now (randK i) i (List.range st.keys.length)
        { st with
          marbles :=
            st.marbles.set i
              (integrateMarble dt (randA i).1 (randA i).2 audio m) } from rfl,
    heq, hstep]
  simp only [List.set_set, hF, Option.getD_some]
  by_cases hy : (stepMarble dt (randA i).1 (randA i).2 (randK i) audio K0
      m).position.y < -10
  · rw [if_pos hy, if_pos hy, eraseIdx_set_self]
  · rw [if_neg hy, if_neg hy]

/-! ### More list helpers for the descending loop -/

/-- A write at the cut index does not affect the prefix. -/
theorem take_set_self {α : Type} (l : List α) (n : ℕ) (a : α) :
    (l.set n a).take n = l.take n := by
  rw [List.set_take]
  exact List.set_eq_of_length_le (by simp)

/-- Erasing at the cut index does not affect the prefix. -/
theorem take_eraseIdx_self {α : Type} (l : List α) (n : ℕ) (hn : n < l.length) :
    (l.eraseIdx n).take n = l.take n := by
  rw [List.eraseIdx_eq_take_drop_succ]
  exact List.take_left' (by simp [List.length_take]; omega)

/-- Dropping up to a written index exposes the written value. -/
theorem drop_set_self {α : Type} (l : List α) (n : ℕ) (a : α) (hn : n < l.length) :
    (l.set n a).drop n = a :: l.drop (n + 1) := by
  rw [List.drop_set, if_neg (lt_irrefl n), Nat.sub_self,
    List.drop_eq_getElem_cons hn]
  rfl

/-- Dropping up to an erased index skips the erased value. -/
theorem drop_eraseIdx_self {α : Type} (l : List α) (n : ℕ) (hn : n < l.length) :
    (l.eraseIdx n).drop n = l.drop (n + 1) := by
  rw [List.eraseIdx_eq_take_drop_succ]
  exact List.drop_left' (by simp [List.length_take]; omega)

/-! ### Per-marble invariants of the step -/

/-- The key loop never flips a marble's activity flag. -/
theorem marbleKeyFold_isActive (rand : ℕ → ℚ) (K : List XylophoneKey) :
    ∀ (js : List ℕ) (m : MarbleState),
      (marbleKeyFold rand K js m).isActive = m.isActive := by
  intro js
  induction js with
  | nil => intro m; rfl
  | cons j js ih =>
    intro m
    have h : marbleKeyFold rand K (j :: js) m
        = marbleKeyFold rand K js
            (match K[j]? with
             | some k => if collides m k then bounceMarble (rand j) m k else m
             | none => m) := rfl
    rw [h, ih]
    rcases K[j]? with _ | k
    · rfl
    · by_cases hc : collides m k = true
      · simp only [hc, if_true]; rfl
      · simp only [hc, Bool.false_eq_true, if_false]

/-- The key loop never changes a marble's radius. -/
theorem marbleKeyFold_radius (rand : ℕ → ℚ) (K : List XylophoneKey) :
    ∀ (js : List ℕ) (m : MarbleState),
      (marbleKeyFold rand K js m).radius = m.radius := by
  intro js
  induction js with
  | nil => intro m; rfl
  | cons j js ih =>
    intro m
    have h : marbleKeyFold rand K (j :: js) m
        = marbleKeyFold rand K js
            (match K[j]? with
             | some k => if collides m k then bounceMarble (rand j) m k else m
             | none => m) := rfl
    rw [h, ih]
    rcases K[j]? with _ | k
    · rfl
    · by_cases hc : collides m k = true
      · simp only [hc, if_true]; rfl
      · simp only [hc, Bool.false_eq_true, if_false]

/-- Integration never flips a marble's activity flag. -/
theorem integrateMarble_isActive (dt r1 r2 : ℚ) (audio : Option AudioInput)
    (m : MarbleState) : (integrateMarble dt r1 r2 audio m).isActive = m.isActive := by
  rcases audio with _ | a <;> rfl

/-- Integration never changes a marble's radius. -/
theorem integrateMarble_radius (dt r1 r2 : ℚ) (audio : Option AudioInput)
    (m : MarbleState) : (integrateMarble dt r1 r2 audio m).radius = m.radius := by
  rcases audio with _ | a <;> rfl

/-- A full step never flips a marble's activity flag. -/
theorem stepMarble_isActive (dt r1 r2 : ℚ) (randK : ℕ → ℚ)
    (audio : Option AudioInput) (K : List XylophoneKey) (m : MarbleState) :
    (stepMarble dt r1 r2 randK audio K m).isActive = m.isActive := by
  rw [stepMarble, marbleKeyFold_isActive, integrateMarble_isActive]

/-! ### The whole marble loop -/

/-- The marbles kept by the code's own retirement test (on the stepped
position), starting at array index `p`. -/
def codeSurvivors (dt : ℚ) (randA : ℕ → ℚ × ℚ) (randK : ℕ → ℕ → ℚ)
    (audio : Option AudioInput) (K0 : List XylophoneKey) :
    ℕ → List MarbleState → List MarbleState
  | _, [] => []
  | p, m :: ms =>
    if (stepMarble dt (randA p).1 (randA p).2 (randK p) audio K0 m).position.y < -10
    then codeSurvivors dt randA randK audio K0 (p + 1) ms
    else stepMarble dt (randA p).1 (randA p).2 (randK p) audio K0 m ::
      codeSurvivors dt randA randK audio K0 (p + 1) ms

/-- `codeSurvivors` distributes over append, shifting the index base. -/
theorem codeSurvivors_append (dt : ℚ) (randA : ℕ → ℚ × ℚ) (randK : ℕ → ℕ → ℚ)
    (audio : Option AudioInput) (K0 : List XylophoneKey) :
    ∀ (l1 l2 : List MarbleState) (p : ℕ),
      codeSurvivors dt randA randK audio K0 p (l1 ++ l2)
        = codeSurvivors dt randA randK audio K0 p l1
          ++ codeSurvivors dt randA randK audio K0 (p + l1.length) l2 := by
  intro l1
  induction l1 with
  | nil => intro l2 p; simp [codeSurvivors]
  | cons m ms ih =>
    intro l2 p
    show (if _ then codeSurvivors dt randA randK audio K0 (p+1) (ms ++ l2)
          else _ :: codeSurvivors dt randA randK audio K0 (p+1) (ms ++ l2)) = _
    rw [ih]
    by_cases hy : (stepMarble dt (randA p).1 (randA p).2 (randK p) audio K0
        m).position.y < -10
    · rw [if_pos hy]
      show _ = (if _ then _ else _) ++ _
      rw [if_pos hy, List.length_cons]
      congr 2
      omega
    · rw [if_neg hy]
      show _ = (if _ then _ else _) ++ _
      rw [if_neg hy, List.length_cons, List.cons_append]
      congr 3
      omega

/-- Specification of the whole descending marble loop: the marbles at
indices `0..i` are stepped and filtered by the retirement test within
this one call, later indices are untouched. -/
theorem updateLoop_spec (dt now : ℚ) (randA : ℕ → ℚ × ℚ) (randK : ℕ → ℕ → ℚ)
    (audio : Option AudioInput) (K0 : List XylophoneKey) :
    ∀ (i : ℕ) (st : PhysicsState),
      i < st.marbles.length →
      (∀ mm ∈ st.marbles, mm.isActive = true) →
      List.Forall₂ sameGeom K0 st.keys →
      ∃ keys2 trail2 notes2,
        updateLoop dt now randA randK audio st i =
          { marbles := codeSurvivors dt randA randK audio K0 0
              (st.marbles.take (i + 1)) ++ st.marbles.drop (i + 1)
            keys := keys2
            trailPoints := trail2
            notesPlayed := notes2 } ∧
        List.Forall₂ sameGeom K0 keys2 := by
  intro i
  induction i with
  | zero =>
    intro st hlen hact hk
    obtain ⟨m, ms, hmar⟩ : ∃ m ms, st.marbles = m :: ms := by
      rcases hcase : st.marbles with _ | ⟨m, ms⟩
      · rw [hcase] at hlen; simp at hlen
      · exact ⟨m, ms, rfl⟩
    have hm : st.marbles[0]? = some m := by rw [hmar]; simp
    have hma : m.isActive = true :=
      hact m (by rw [hmar]; exact List.mem_cons_self m ms)
    obtain ⟨keys2, trail2, notes2, heq, hrel2⟩ :=
      processMarble_spec dt now randA randK audio K0 st 0 m hm hma hk
    refine ⟨keys2, trail2, notes2, ?_, hrel2⟩
    show processMarble dt now randA randK audio st 0 = _
    rw [heq, hmar]
    have hcs : codeSurvivors dt randA randK audio K0 0 (List.take (0+1) (m :: ms))
        = (if (stepMarble dt (randA 0).1 (randA 0).2 (randK 0) audio K0
            m).position.y < -10
           then []
           else [stepMarble dt (randA 0).1 (randA 0).2 (randK 0) audio K0 m]) := rfl
    rw [hcs]
    by_cases hy : (stepMarble dt (randA 0).1 (randA 0).2 (randK 0) audio K0
        m).position.y < -10
    · rw [if_pos hy, if_pos hy]
      rfl
    · rw [if_neg hy, if_neg hy]
      rfl
  | succ i ih =>
    intro st hlen hact hk
    have hlt : i + 1 < st.marbles.length := hlen
    have hm : st.marbles[i+1]? = some (st.marbles[i+1]) :=
      List.getElem?_eq_getElem hlt
    have hma : (st.marbles[i+1]).isActive = true :=
      hact _ (List.getElem_mem hlt)
    obtain ⟨keys2, trail2, notes2, heq, hrel2⟩ :=
      processMarble_spec dt now randA randK audio K0 st (i+1)
        (st.marbles[i+1]) hm hma hk
    have hloop : updateLoop dt now randA randK audio st (i+1)
        = updateLoop dt now randA randK audio
            { marbles :=
                (if (stepMarble dt (randA (i+1)).1 (randA (i+1)).2 (randK (i+1))
                      audio K0 (st.marbles[i+1])).position.y < -10
                 then st.marbles.eraseIdx (i+1)
                 else st.marbles.set (i+1)
                   (stepMarble dt (randA (i+1)).1 (randA (i+1)).2 (randK (i+1))
                      audio K0 (st.marbles[i+1])))
              keys := keys2
              trailPoints := trail2
              notesPlayed := notes2 } i := by
      show updateLoop dt now randA randK audio
          (processMarble dt now randA randK audio st (i+1)) i = _
      rw [heq]
    by_cases hy : (stepMarble dt (randA (i+1)).1 (randA (i+1)).2 (randK (i+1))
        audio K0 (st.marbles[i+1])).position.y < -10
    · -- the marble at index i+1 is retired
      rw [if_pos hy] at hloop
      obtain ⟨keys3, trail3, notes3, heq2, hrel3⟩ :=
        ih { marbles := st.marbles.eraseIdx (i+1)
             keys := keys2
             trailPoints := trail2
             notesPlayed := notes2 }
          (by
            show i < (st.marbles.eraseIdx (i+1)).length
            rw [List.length_eraseIdx_of_lt hlt]
            omega)
          (by
            intro mm hmm
            exact hact mm (List.eraseIdx_subset st.marbles (i+1) hmm))
          hrel2
      refine ⟨keys3, trail3, notes3, ?_, hrel3⟩
      rw [hloop, heq2]
      have htake : (st.marbles.eraseIdx (i+1)).take (i+1) = st.marbles.take (i+1) :=
        take_eraseIdx_self _ _ hlt
      have hdrop : (st.marbles.eraseIdx (i+1)).drop (i+1) = st.marbles.drop (i+2) :=
        drop_eraseIdx_self _ _ hlt
      have htake2 : st.marbles.take (i+2)
          = st.marbles.take (i+1) ++ [st.marbles[i+1]] := by
        rw [List.take_succ, hm]
        rfl
      have hlen1 : (st.marbles.take (i+1)).length = i + 1 := by
        rw [List.length_take]
        omega
      show PhysicsState.mk _ _ _ _ = PhysicsState.mk _ _ _ _
      congr 1
      show codeSurvivors dt randA randK audio K0 0
          ((st.marbles.eraseIdx (i+1)).take (i+1))
          ++ (st.marbles.eraseIdx (i+1)).drop (i+1) = _
      rw [htake, hdrop, htake2, codeSurvivors_append, hlen1]
      rw [show codeSurvivors dt randA randK audio K0 (0 + (i+1))
          [st.marbles[i+1]]
          = (if (stepMarble dt (randA (0+(i+1))).1 (randA (0+(i+1))).2
                (randK (0+(i+1))) audio K0
                (st.marbles[i+1])).position.y < -10
             then codeSurvivors dt randA randK audio K0 (0+(i+1)+1) []
             else stepMarble dt (randA (0+(i+1))).1 (randA (0+(i+1))).2
                (randK (0+(i+1))) audio K0 (st.marbles[i+1]) ::
               codeSurvivors dt randA randK audio K0 (0+(i+1)+1) []) from rfl]
      rw [show (0 + (i+1)) = i + 1 from by omega, if_pos hy,
        show codeSurvivors dt randA randK audio K0 (i+1+1) [] = [] from rfl,
        List.append_nil]
    · -- the marble at index i+1 survives
      rw [if_neg hy] at hloop
      obtain ⟨keys3, trail3, notes3, heq2, hrel3⟩ :=
        ih { marbles := st.marbles.set (i+1)
               (stepMarble dt (randA (i+1)).1 (randA (i+1)).2 (randK (i+1))
                 audio K0 (st.marbles[i+1]))
             keys := keys2
             trailPoints := trail2
             notesPlayed := notes2 }
          (by
            show i < (st.marbles.set (i+1) _).length
            rw [List.length_set]
            omega)
          (by
            intro mm hmm
            rcases List.mem_or_eq_of_mem_set hmm with h | h
            · exact hact mm h
            · rw [h, stepMarble_isActive]
              exact hma)
          hrel2
      refine ⟨keys3, trail3, notes3, ?_, hrel3⟩
      rw [hloop, heq2]
      have htake : (st.marbles.set (i+1)
          (stepMarble dt (randA (i+1)).1 (randA (i+1)).2 (randK (i+1))
            audio K0 (st.marbles[i+1]))).take (i+1)
          = st.marbles.take (i+1) := take_set_self _ _ _
      have hdrop : (st.marbles.set (i+1)
          (stepMarble dt (randA (i+1)).1 (randA (i+1)).2 (randK (i+1))
            audio K0 (st.marbles[i+1]))).drop (i+1)
          = stepMarble dt (randA (i+1)).1 (randA (i+1)).2 (randK (i+1))
              audio K0 (st.marbles[i+1]) :: st.marbles.drop (i+2) :=
        drop_set_self _ _ _ hlt
      have htake2 : st.marbles.take (i+2)
          = st.marbles.take (i+1) ++ [st.marbles[i+1]] := by
        rw [List.take_succ, hm]
        rfl
      have hlen1 : (st.marbles.take (i+1)).length = i + 1 := by
        rw [List.length_take]
        omega
      show PhysicsState.mk _ _ _ _ = PhysicsState.mk _ _ _ _
      congr 1
      show codeSurvivors dt randA randK audio K0 0
          ((st.marbles.set (i+1) _).take (i+1))
          ++ (st.marbles.set (i+1) _).drop (i+1) = _
      rw [htake, hdrop, htake2, codeSurvivors_append, hlen1]
      rw [show codeSurvivors dt randA randK audio K0 (0 + (i+1))
          [st.marbles[i+1]]
          = (if (stepMarble dt (randA (0+(i+1))).1 (randA (0+(i+1))).2
                (randK (0+(i+1))) audio K0
                (st.marbles[i+1])).position.y < -10
             then codeSurvivors dt randA randK audio K0 (0+(i+1)+1) []
             else stepMarble dt (randA (0+(i+1))).1 (randA (0+(i+1))).2
                (randK (0+(i+1))) audio K0 (st.marbles[i+1]) ::
               codeSurvivors dt randA randK audio K0 (0+(i+1)+1) []) from rfl]
      rw [show (0 + (i+1)) = i + 1 from by omega, if_neg hy,
        show codeSurvivors dt randA randK audio K0 (i+1+1) [] = [] from rfl]
      simp only [List.append_assoc, List.cons_append, List.nil_append]

/-- Every fixed key sits at height `0` with thickness `0.3`. -/
theorem setup_keys_flat : ∀ k ∈ setupXylophoneKeys,
    k.position.y = 0 ∧ k.height = 3/10 := by
  intro k hk
  simp only [setupXylophoneKeys, List.mem_cons, List.not_mem_nil, or_false] at hk
  rcases hk with h | h | h | h | h | h | h <;> subst h <;> exact ⟨rfl, rfl⟩

/-- A marble already below the floor cannot reach any fixed key: the key
loop leaves it unchanged (its radius being at most `9`). -/
theorem marbleKeyFold_below_floor (rand : ℕ → ℚ) :
    ∀ (js : List ℕ) (m : MarbleState), m.position.y < -10 → m.radius ≤ 9 →
      marbleKeyFold rand setupXylophoneKeys js m = m := by
  intro js
  induction js with
  | nil => intro m _ _; rfl
  | cons j js ih =>
    intro m hy hr
    have h : marbleKeyFold rand setupXylophoneKeys (j :: js) m
        = marbleKeyFold rand setupXylophoneKeys js
            (match setupXylophoneKeys[j]? with
             | some k => if collides m k then bounceMarble (rand j) m k else m
             | none => m) := rfl
    rw [h]
    rcases hkj : setupXylophoneKeys[j]? with _ | k
    · exact ih m hy hr
    · have hmem : k ∈ setupXylophoneKeys := List.getElem?_mem hkj
      have hflat := setup_keys_flat k hmem
      have hcol : collides m k = false := by
        cases hcb : collides m k with
        | false => rfl
        | true =>
          exfalso
          rcases (collides_iff m k).mp hcb with ⟨_, _, _, h4⟩
          rw [hflat.1, hflat.2] at h4
          linarith
      show marbleKeyFold rand setupXylophoneKeys js
        (if collides m k then bounceMarble (rand j) m k else m) = m
      rw [hcol]
      simp only [Bool.false_eq_true, if_false]
      exact ih m hy hr

/-- A marble at or above the floor stays at or above it through the key
loop (its radius being non-negative: a bounce rests it on a key top). -/
theorem marbleKeyFold_above_floor (rand : ℕ → ℚ) :
    ∀ (js : List ℕ) (m : MarbleState), -10 ≤ m.position.y → 0 ≤ m.radius →
      -10 ≤ (marbleKeyFold rand setupXylophoneKeys js m).position.y := by
  intro js
  induction js with
  | nil => intro m hy _; exact hy
  | cons j js ih =>
    intro m hy hr
    have h : marbleKeyFold rand setupXylophoneKeys (j :: js) m
        = marbleKeyFold rand setupXylophoneKeys js
            (match setupXylophoneKeys[j]? with
             | some k => if collides m k then bounceMarble (rand j) m k else m
             | none => m) := rfl
    rw [h]
    rcases hkj : setupXylophoneKeys[j]? with _ | k
    · exact ih m hy hr
    · have hmem : k ∈ setupXylophoneKeys := List.getElem?_mem hkj
      have hflat := setup_keys_flat k hmem
      show -10 ≤ (marbleKeyFold rand setupXylophoneKeys js
        (if collides m k then bounceMarble (rand j) m k else m)).position.y
      by_cases hcb : collides m k = true
      · rw [if_pos hcb]
        refine ih _ ?_ hr
        show -10 ≤ k.position.y + k.height / 2 + m.radius
        rw [hflat.1, hflat.2]
        linarith
      · rw [if_neg hcb]
        exact ih m hy hr

/-- Over the fixed key layout, the code's retirement test on the stepped
marble coincides with the test on the freshly integrated position. -/
theorem stepMarble_floor_iff (dt r1 r2 : ℚ) (randK : ℕ → ℚ)
    (audio : Option AudioInput) (m : MarbleState)
    (h0 : 0 ≤ m.radius) (h9 : m.radius ≤ 9) :
    ((stepMarble dt r1 r2 randK audio setupXylophoneKeys m).position.y < -10
      ↔ (integrateMarble dt r1 r2 audio m).position.y < -10) := by
  have hrad : (integrateMarble dt r1 r2 audio m).radius = m.radius :=
    integrateMarble_radius dt r1 r2 audio m
  constructor
  · intro hs
    by_contra hi
    push_neg at hi
    exact absurd (marbleKeyFold_above_floor randK _ _ hi (by rw [hrad]; exact h0))
      (by rw [stepMarble] at hs; exact not_le.mpr hs)
  · intro hi
    rw [stepMarble, marbleKeyFold_below_floor randK _ _ hi (by rw [hrad]; exact h9)]
    exact hi

/-- Over the fixed key layout, the code's survivor computation equals
the integrated-position formulation. -/
theorem codeSurvivors_eq_survivorsFrom (dt : ℚ) (randA : ℕ → ℚ × ℚ)
    (randK : ℕ → ℕ → ℚ) (audio : Option AudioInput) :
    ∀ (l : List MarbleState) (p : ℕ),
      (∀ m ∈ l, 0 ≤ m.radius ∧ m.radius ≤ 9) →
      codeSurvivors dt randA randK audio setupXylophoneKeys p l
        = survivorsFrom dt randA randK audio setupXylophoneKeys p l := by
  intro l
  induction l with
  | nil => intro p _; rfl
  | cons m ms ih =>
    intro p hrad
    have hm := hrad m (List.mem_cons_self m ms)
    have hms : ∀ mm ∈ ms, 0 ≤ mm.radius ∧ mm.radius ≤ 9 :=
      fun mm hmm => hrad mm (List.mem_cons_of_mem m hmm)
    have hiff := stepMarble_floor_iff dt (randA p).1 (randA p).2 (randK p)
      audio m hm.1 hm.2
    show (if _ then _ else _) = (if _ then _ else _)
    by_cases hi : (integrateMarble dt (randA p).1 (randA p).2 audio
        m).position.y < -10
    · rw [if_pos (hiff.mpr hi), if_pos hi]
      exact ih (p+1) hms
    · rw [if_neg (fun hs => hi (hiff.mp hs)), if_neg hi]
      rw [ih (p+1) hms]

/-- Splitting one step's marbles into survivors and retirees is exact:
the active set shrinks by exactly one per retired marble. -/
theorem survivorsFrom_length (dt : ℚ) (randA : ℕ → ℚ × ℚ) (randK : ℕ → ℕ → ℚ)
    (audio : Option AudioInput) (keys : List XylophoneKey) :
    ∀ (l : List MarbleState) (p : ℕ),
      (survivorsFrom dt randA randK audio keys p l).length
        + retiredCountFrom dt randA audio p l = l.length := by
  intro l
  induction l with
  | nil => intro p; rfl
  | cons m ms ih =>
    intro p
    show (if _ then _ else _ : List MarbleState).length
        + ((if _ then _ else _) + _) = ms.length + 1
    by_cases hi : (integrateMarble dt (randA p).1 (randA p).2 audio
        m).position.y < -10
    · rw [if_pos hi, if_pos hi]
      have := ih (p+1)
      omega
    · rw [if_neg hi, if_neg hi]
      have := ih (p+1)
      simp only [List.length_cons]
      omega

/-- `updateKeyAnimations` touches only the key array. -/
theorem updateKeyAnimations_marbles (now : ℚ) (st : PhysicsState) :
    (updateKeyAnimations now st).marbles = st.marbles := rfl

/-- `updateKeyAnimations` leaves the note log alone. -/
theorem updateKeyAnimations_notesPlayed (now : ℚ) (st : PhysicsState) :
    (updateKeyAnimations now st).notesPlayed = st.notesPlayed := rfl

/-- Claim C7: in every `update` call on the fixed key layout (active
marbles of physical radius `0 ≤ r ≤ 9`; spawned marbles always have
`r = 0.3`), each marble whose vertical position falls below `-10` after
integration is removed from the active set within that same call, and
each surviving marble stays, stepped — so the active set size decreases
by exactly 1 per retired marble.  Removal is by splicing the array, so
it happens at most once per marble and is never reverted. -/
theorem marble_retired_same_step (dt now : ℚ) (randA : ℕ → ℚ × ℚ)
    (randK : ℕ → ℕ → ℚ) (audio : Option AudioInput) (st : PhysicsState)
    (hact : ∀ m ∈ st.marbles, m.isActive = true)
    (hkeys : st.keys = setupXylophoneKeys)
    (hrad : ∀ m ∈ st.marbles, 0 ≤ m.radius ∧ m.radius ≤ 9) :
    (update dt now randA randK audio st).marbles
      = survivorsFrom dt randA randK audio setupXylophoneKeys 0 st.marbles ∧
    (update dt now randA randK audio st).marbles.length
      + retiredCountFrom dt randA audio 0 st.marbles = st.marbles.length := by
  have hmain : (update dt now randA randK audio st).marbles
      = survivorsFrom dt randA randK audio setupXylophoneKeys 0 st.marbles := by
    rcases hcase : st.marbles with _ | ⟨m, ms⟩
    · -- no marbles: the loop body sees an empty array and does nothing
      have hempty : update dt now randA randK audio st
          = updateKeyAnimations now st := by
        rw [update, hcase]
        rw [show updateLoop dt now randA randK audio st (([] : List MarbleState).length - 1)
            = processMarble dt now randA randK audio st 0 from rfl]
        rw [show processMarble dt now randA randK audio st 0 = st from by
          simp only [processMarble, hcase]
          rfl]
      rw [hempty, updateKeyAnimations_marbles, hcase]
      rfl
    · have hlen : st.marbles.length - 1 < st.marbles.length := by
        rw [hcase]
        simp
      have hgeom : List.Forall₂ sameGeom setupXylophoneKeys st.keys := by
        rw [hkeys]
        rw [List.forall₂_same]
        intro k _
        exact ⟨rfl, rfl, rfl, rfl, rfl, rfl, rfl⟩
      obtain ⟨keys2, trail2, notes2, heq, _⟩ :=
        updateLoop_spec dt now randA randK audio setupXylophoneKeys
          (st.marbles.length - 1) st hlen hact hgeom
      have hsucc : st.marbles.length - 1 + 1 = st.marbles.length := by
        rw [hcase]
        simp
      rw [update, updateKeyAnimations_marbles, heq]
      show codeSurvivors dt randA randK audio setupXylophoneKeys 0
          (st.marbles.take (st.marbles.length - 1 + 1))
          ++ st.marbles.drop (st.marbles.length - 1 + 1) = _
      rw [hsucc, List.take_length, List.drop_length, List.append_nil, ← hcase]
      exact codeSurvivors_eq_survivorsFrom dt randA randK audio st.marbles 0 hrad
  refine ⟨hmain, ?_⟩
  rw [hmain]
  exact survivorsFrom_length dt randA randK audio setupXylophoneKeys st.marbles 0

/-! ### A single marble striking a single key -/

/-- Indexing the fixed key list. -/
theorem setupKeys_getElem? (j : ℕ) (hj : j < 7) :
    setupXylophoneKeys[j]? = some (keyAt j) := by
  interval_cases j <;> rfl

/-- The geometry of key `j`. -/
theorem keyAt_fields (j : ℕ) (hj : j < 7) :
    (keyAt j).position.x = 2 * (j : ℚ) - 6 ∧ (keyAt j).position.y = 0 ∧
    (keyAt j).width = 3/2 ∧ (keyAt j).height = 3/10 := by
  interval_cases j <;> exact ⟨by norm_num [keyAt, setupXylophoneKeys, mkKey], rfl, rfl, rfl⟩

/-- The fixed keys' x-extents are pairwise disjoint: a marble whose
center x lies over key `j` cannot also collide with a different key. -/
theorem collides_other_key_false (m m2 : MarbleState) (j j2 : ℕ)
    (hj : j < 7) (hj2 : j2 < 7) (hne : j ≠ j2)
    (hx : m2.position.x = m.position.x)
    (hc : collides m (keyAt j) = true) :
    collides m2 (keyAt j2) = false := by
  obtain ⟨hxj, _, hwj, _⟩ := keyAt_fields j hj
  obtain ⟨hxj2, _, hwj2, _⟩ := keyAt_fields j2 hj2
  rcases (collides_iff m (keyAt j)).mp hc with ⟨h1, h2, _, _⟩
  rw [hxj, hwj] at h1 h2
  cases hcb : collides m2 (keyAt j2) with
  | false => rfl
  | true =>
    exfalso
    rcases (collides_iff m2 (keyAt j2)).mp hcb with ⟨g1, g2, _, _⟩
    rw [hxj2, hwj2, hx] at g1 g2
    rcases Nat.lt_or_ge j j2 with hlt | hge
    · have hc1 : (j : ℚ) + 1 ≤ (j2 : ℚ) := by exact_mod_cast hlt
      linarith
    · have hlt2 : j2 < j := lt_of_le_of_ne hge (fun hh => hne hh.symm)
      have hc1 : (j2 : ℚ) + 1 ≤ (j : ℚ) := by exact_mod_cast hlt2
      linarith

/-- Key indices that never collide leave the loop state unchanged. -/
theorem checkKeysAux_skip (now : ℚ) (rand : ℕ → ℚ) (i : ℕ) :
    ∀ (js : List ℕ) (st : PhysicsState) (m : MarbleState),
      st.marbles[i]? = some m →
      (∀ j ∈ js, ∀ k, st.keys[j]? = some k → collides m k = false) →
      checkKeysAux now rand i js st = st := by
  intro js
  induction js with
  | nil => intro st m _ _; rfl
  | cons j js ih =>
    intro st m hm hno
    have hstep : checkStep now rand i st j = st := by
      rcases hkj : st.keys[j]? with _ | k
      · simp only [checkStep, hm, hkj]
      · have hfalse := hno j (List.mem_cons_self j js) k hkj
        simp only [checkStep, hm, hkj, hfalse, Bool.false_eq_true, if_false]
    rw [show checkKeysAux now rand i (j :: js) st
        = checkKeysAux now rand i js (checkStep now rand i st j) from rfl, hstep]
    exact ih st m hm (fun j2 hj2 k hk => hno j2 (List.mem_cons_of_mem _ hj2) k hk)

/-- The key loop over an appended index list runs in sequence. -/
theorem checkKeysAux_append (now : ℚ) (rand : ℕ → ℚ) (i : ℕ) :
    ∀ (l1 l2 : List ℕ) (st : PhysicsState),
      checkKeysAux now rand i (l1 ++ l2) st
        = checkKeysAux now rand i l2 (checkKeysAux now rand i l1 st) := by
  intro l1
  induction l1 with
  | nil => intro l2 st; rfl
  | cons j js ih =>
    intro l2 st
    show checkKeysAux now rand i (js ++ l2) (checkStep now rand i st j) = _
    rw [ih]
    rfl

/-- Unfolding of the loop body once the marble lookup and activity check
are discharged. -/
theorem processMarble_eq (dt now : ℚ) (randA : ℕ → ℚ × ℚ) (randK : ℕ → ℕ → ℚ)
    (audio : Option AudioInput) (st : PhysicsState) (i : ℕ) (m : MarbleState)
    (hm : st.marbles[i]? = some m) (hact : m.isActive = true) :
    processMarble dt now randA randK audio st i
      = (if ((checkKeyCollisions now (randK i) i
          { st with marbles := (st.marbles.set i (integrateMarble dt (randA i).1 (randA i).2 audio m)) }).marbles[i]?.getD (integrateMarble dt (randA i).1 (randA i).2 audio m)).position.y < -10
         then ⟨(checkKeyCollisions now (randK i) i
          { st with marbles := (st.marbles.set i (integrateMarble dt (randA i).1 (randA i).2 audio m)) }).marbles.eraseIdx i, (checkKeyCollisions now (randK i) i
          { st with marbles := (st.marbles.set i (integrateMarble dt (randA i).1 (randA i).2 audio m)) }).keys,
           (if 100 < ((checkKeyCollisions now (randK i) i
          { st with marbles := (st.marbles.set i (integrateMarble dt (randA i).1 (randA i).2 audio m)) }).trailPoints ++ [((checkKeyCollisions now (randK i) i
          { st with marbles := (st.marbles.set i (integrateMarble dt (randA i).1 (randA i).2 audio m)) }).marbles[i]?.getD (integrateMarble dt (randA i).1 (randA i).2 audio m)).position]).length then ((checkKeyCollisions now (randK i) i
          { st with marbles := (st.marbles.set i (integrateMarble dt (randA i).1 (randA i).2 audio m)) }).trailPoints ++ [((checkKeyCollisions now (randK i) i
          { st with marbles := (st.marbles.set i (integrateMarble dt (randA i).1 (randA i).2 audio m)) }).marbles[i]?.getD (integrateMarble dt (randA i).1 (randA i).2 audio m)).position]).drop 1 else ((checkKeyCollisions now (randK i) i
          { st with marbles := (st.marbles.set i (integrateMarble dt (randA i).1 (randA i).2 audio m)) }).trailPoints ++ [((checkKeyCollisions now (randK i) i
          { st with marbles := (st.marbles.set i (integrateMarble dt (randA i).1 (randA i).2 audio m)) }).marbles[i]?.getD (integrateMarble dt (randA i).1 (randA i).2 audio m)).position])), (checkKeyCollisions now (randK i) i
          { st with marbles := (st.marbles.set i (integrateMarble dt (randA i).1 (randA i).2 audio m)) }).notesPlayed⟩
         else ⟨(checkKeyCollisions now (randK i) i
          { st with marbles := (st.marbles.set i (integrateMarble dt (randA i).1 (randA i).2 audio m)) }).marbles, (checkKeyCollisions now (randK i) i
          { st with marbles := (st.marbles.set i (integrateMarble dt (randA i).1 (randA i).2 audio m)) }).keys,
           (if 100 < ((checkKeyCollisions now (randK i) i
          { st with marbles := (st.marbles.set i (integrateMarble dt (randA i).1 (randA i).2 audio m)) }).trailPoints ++ [((checkKeyCollisions now (randK i) i
          { st with marbles := (st.marbles.set i (integrateMarble dt (randA i).1 (randA i).2 audio m)) }).marbles[i]?.getD (integrateMarble dt (randA i).1 (randA i).2 audio m)).position]).length then ((checkKeyCollisions now (randK i) i
          { st with marbles := (st.marbles.set i (integrateMarble dt (randA i).1 (randA i).2 audio m)) }).trailPoints ++ [((checkKeyCollisions now (randK i) i
          { st with marbles := (st.marbles.set i (integrateMarble dt (randA i).1 (randA i).2 audio m)) }).marbles[i]?.getD (integrateMarble dt (randA i).1 (randA i).2 audio m)).position]).drop 1 else ((checkKeyCollisions now (randK i) i
          { st with marbles := (st.marbles.set i (integrateMarble dt (randA i).1 (randA i).2 audio m)) }).trailPoints ++ [((checkKeyCollisions now (randK i) i
          { st with marbles := (st.marbles.set i (integrateMarble dt (randA i).1 (randA i).2 audio m)) }).marbles[i]?.getD (integrateMarble dt (randA i).1 (randA i).2 audio m)).position])), (checkKeyCollisions now (randK i) i
          { st with marbles := (st.marbles.set i (integrateMarble dt (randA i).1 (randA i).2 audio m)) }).notesPlayed⟩) := by
  simp only [processMarble, hm, hact, if_true]

set_option maxHeartbeats 1000000 in
/-- One full `update` call on a single-marble field whose marble, freshly
integrated, collides with key `j`: the marble ends bounced on that key,
and exactly one note is logged — the key's frequency with velocity
`min(1, |v|·0.7/10)` computed from the already-damped vertical velocity
(the struck marble being the last — and only — array entry). -/
theorem update_single_collision (dt now : ℚ) (randA : ℕ → ℚ × ℚ)
    (randK : ℕ → ℕ → ℚ) (audio : Option AudioInput) (m : MarbleState)
    (tp : List Vec3) (np : List (ℚ × ℚ)) (j : ℕ) (hj : j < 7)
    (hact : m.isActive = true) (hrad : 0 ≤ m.radius)
    (hc : collides (integrateMarble dt (randA 0).1 (randA 0).2 audio m)
      (keyAt j) = true) :
    (update dt now randA randK audio ⟨[m], setupXylophoneKeys, tp, np⟩).marbles
      = [bounceMarble (randK 0 j)
          (integrateMarble dt (randA 0).1 (randA 0).2 audio m) (keyAt j)] ∧
    (update dt now randA randK audio ⟨[m], setupXylophoneKeys, tp, np⟩).notesPlayed
      = np ++ [((keyAt j).frequency,
          min 1 (|(integrateMarble dt (randA 0).1 (randA 0).2 audio m).velocity.y|
            * (7/10) / 10))] := by
  have hmem : keyAt j ∈ setupXylophoneKeys :=
    List.getElem?_mem (setupKeys_getElem? j hj)
  obtain ⟨hkx, hky, hkw, hkh⟩ := keyAt_fields j hj
  -- abbreviations
  have hrange : List.range 7 = List.range' 0 j ++ j :: List.range' (j+1) (6-j) := by
    rw [List.range_eq_range',
      show (7 : ℕ) = (7 - j) + j from by omega,
      ← List.range'_append_1 0 j (7-j),
      show (7 - j : ℕ) = (6 - j) + 1 from by omega,
      List.range'_succ]
    simp
  -- phase 1: keys before j never collide with the integrated marble
  have hskip1 : checkKeysAux now (randK 0) 0 (List.range' 0 j)
      (⟨[integrateMarble dt (randA 0).1 (randA 0).2 audio m],
        setupXylophoneKeys, tp, np⟩ : PhysicsState)
      = ⟨[integrateMarble dt (randA 0).1 (randA 0).2 audio m],
        setupXylophoneKeys, tp, np⟩ := by
    apply checkKeysAux_skip now (randK 0) 0 _ _
      (integrateMarble dt (randA 0).1 (randA 0).2 audio m)
      (by simp)
    intro j2 hj2 k hk
    rcases List.mem_range'.mp hj2 with ⟨i2, hi2, hj2eq⟩
    have hj2lt : j2 < j := by omega
    have hj2seven : j2 < 7 := by omega
    rw [setupKeys_getElem? j2 hj2seven] at hk
    have hkk : k = keyAt j2 := (Option.some.inj hk).symm
    subst hkk
    exact collides_other_key_false _ _ j j2 hj hj2seven (by omega) rfl hc
  -- the strike at key j
  have hstepj : checkStep now (randK 0) 0
      (⟨[integrateMarble dt (randA 0).1 (randA 0).2 audio m],
        setupXylophoneKeys, tp, np⟩ : PhysicsState) j
      = ⟨[bounceMarble (randK 0 j)
            (integrateMarble dt (randA 0).1 (randA 0).2 audio m) (keyAt j)],
         setupXylophoneKeys.set j
           { keyAt j with isHit := true, hitTime := now }, tp,
         np ++ [((keyAt j).frequency,
           playNoteVelocity [bounceMarble (randK 0 j)
             (integrateMarble dt (randA 0).1 (randA 0).2 audio m) (keyAt j)])]⟩ := by
    have hm0 : (⟨[integrateMarble dt (randA 0).1 (randA 0).2 audio m],
        setupXylophoneKeys, tp, np⟩ : PhysicsState).marbles[0]?
        = some (integrateMarble dt (randA 0).1 (randA 0).2 audio m) := by
      simp
    have hkj : (⟨[integrateMarble dt (randA 0).1 (randA 0).2 audio m],
        setupXylophoneKeys, tp, np⟩ : PhysicsState).keys[j]?
        = some (keyAt j) := setupKeys_getElem? j hj
    simp only [checkStep, hm0, hkj, hc, if_true]
    rfl
  -- phase 3: keys after j never collide with the bounced marble
  have hskip2 : checkKeysAux now (randK 0) 0 (List.range' (j+1) (6-j))
      (⟨[bounceMarble (randK 0 j)
            (integrateMarble dt (randA 0).1 (randA 0).2 audio m) (keyAt j)],
         setupXylophoneKeys.set j
           { keyAt j with isHit := true, hitTime := now }, tp,
         np ++ [((keyAt j).frequency,
           playNoteVelocity [bounceMarble (randK 0 j)
             (integrateMarble dt (randA 0).1 (randA 0).2 audio m) (keyAt j)])]⟩
        : PhysicsState)
      = ⟨[bounceMarble (randK 0 j)
            (integrateMarble dt (randA 0).1 (randA 0).2 audio m) (keyAt j)],
         setupXylophoneKeys.set j
           { keyAt j with isHit := true, hitTime := now }, tp,
         np ++ [((keyAt j).frequency,
           playNoteVelocity [bounceMarble (randK 0 j)
             (integrateMarble dt (randA 0).1 (randA 0).2 audio m) (keyAt j)])]⟩ := by
    apply checkKeysAux_skip now (randK 0) 0 _ _
      (bounceMarble (randK 0 j)
        (integrateMarble dt (randA 0).1 (randA 0).2 audio m) (keyAt j))
      (by simp)
    intro j2 hj2 k hk
    rcases List.mem_range'.mp hj2 with ⟨i2, hi2, hj2eq⟩
    have hj2ne : j2 ≠ j := by omega
    have hj2seven : j2 < 7 := by omega
    have hkset : (setupXylophoneKeys.set j
        { keyAt j with isHit := true, hitTime := now })[j2]?
        = setupXylophoneKeys[j2]? := List.getElem?_set_ne (fun hh => hj2ne hh.symm)
    rw [show (⟨_, setupXylophoneKeys.set j
        { keyAt j with isHit := true, hitTime := now }, _, _⟩
          : PhysicsState).keys = setupXylophoneKeys.set j
        { keyAt j with isHit := true, hitTime := now } from rfl] at hk
    rw [hkset, setupKeys_getElem? j2 hj2seven] at hk
    have hkk : k = keyAt j2 := (Option.some.inj hk).symm
    subst hkk
    exact collides_other_key_false
      (integrateMarble dt (randA 0).1 (randA 0).2 audio m)
      (bounceMarble (randK 0 j)
        (integrateMarble dt (randA 0).1 (randA 0).2 audio m) (keyAt j))
      j j2 hj hj2seven (fun hh => hj2ne hh.symm) rfl hc
  -- the whole collision loop
  have hcc : checkKeyCollisions now (randK 0) 0
      (⟨[integrateMarble dt (randA 0).1 (randA 0).2 audio m],
        setupXylophoneKeys, tp, np⟩ : PhysicsState)
      = ⟨[bounceMarble (randK 0 j)
            (integrateMarble dt (randA 0).1 (randA 0).2 audio m) (keyAt j)],
         setupXylophoneKeys.set j
           { keyAt j with isHit := true, hitTime := now }, tp,
         np ++ [((keyAt j).frequency,
           playNoteVelocity [bounceMarble (randK 0 j)
             (integrateMarble dt (randA 0).1 (randA 0).2 audio m) (keyAt j)])]⟩ := by
    show checkKeysAux now (randK 0) 0 (List.range 7) _ = _
    rw [hrange, checkKeysAux_append, hskip1,
      show ∀ (s : PhysicsState), checkKeysAux now (randK 0) 0
        (j :: List.range' (j+1) (6-j)) s
        = checkKeysAux now (randK 0) 0 (List.range' (j+1) (6-j))
            (checkStep now (randK 0) 0 s j) from fun s => rfl,
      hstepj, hskip2]
  -- the note's velocity comes from the damped vertical velocity
  have hpv : playNoteVelocity [bounceMarble (randK 0 j)
        (integrateMarble dt (randA 0).1 (randA 0).2 audio m) (keyAt j)]
      = min 1 (|(integrateMarble dt (randA 0).1 (randA 0).2 audio m).velocity.y|
          * (7/10) / 10) := by
    show min 1 (|(bounceMarble (randK 0 j)
        (integrateMarble dt (randA 0).1 (randA 0).2 audio m)
        (keyAt j)).velocity.y| / 10) = _
    rw [show (bounceMarble (randK 0 j)
        (integrateMarble dt (randA 0).1 (randA 0).2 audio m)
        (keyAt j)).velocity.y
        = |(integrateMarble dt (randA 0).1 (randA 0).2 audio m).velocity.y|
            * bounceDamping from rfl]
    rw [abs_of_nonneg (mul_nonneg (abs_nonneg _) (by norm_num [bounceDamping]))]
    rfl
  -- the bounced marble rests above the retirement floor
  have hby : ¬ (bounceMarble (randK 0 j)
      (integrateMarble dt (randA 0).1 (randA 0).2 audio m)
      (keyAt j)).position.y < -10 := by
    rw [show (bounceMarble (randK 0 j)
        (integrateMarble dt (randA 0).1 (randA 0).2 audio m)
        (keyAt j)).position.y
        = (keyAt j).position.y + (keyAt j).height / 2
            + (integrateMarble dt (randA 0).1 (randA 0).2 audio m).radius from rfl,
      hky, hkh, integrateMarble_radius]
    push_neg
    linarith
  -- assemble the whole update
  have hproc : processMarble dt now randA randK audio
      (⟨[m], setupXylophoneKeys, tp, np⟩ : PhysicsState) 0
      = ⟨[bounceMarble (randK 0 j)
            (integrateMarble dt (randA 0).1 (randA 0).2 audio m) (keyAt j)],
         setupXylophoneKeys.set j
           { keyAt j with isHit := true, hitTime := now },
         (if 100 < (tp ++ [(bounceMarble (randK 0 j)
             (integrateMarble dt (randA 0).1 (randA 0).2 audio m)
             (keyAt j)).position]).length
          then (tp ++ [(bounceMarble (randK 0 j)
             (integrateMarble dt (randA 0).1 (randA 0).2 audio m)
             (keyAt j)).position]).drop 1
          else tp ++ [(bounceMarble (randK 0 j)
             (integrateMarble dt (randA 0).1 (randA 0).2 audio m)
             (keyAt j)).position]),
         np ++ [((keyAt j).frequency,
           playNoteVelocity [bounceMarble (randK 0 j)
             (integrateMarble dt (randA 0).1 (randA 0).2 audio m) (keyAt j)])]⟩ := by
    rw [processMarble_eq dt now randA randK audio _ 0 m (by simp) hact]
    rw [show (⟨[m], setupXylophoneKeys, tp, np⟩ : PhysicsState).marbles.set 0 (integrateMarble dt (randA 0).1 (randA 0).2 audio m) = [integrateMarble dt (randA 0).1 (randA 0).2 audio m] from rfl]
    rw [show (⟨[m], setupXylophoneKeys, tp, np⟩ : PhysicsState).keys = setupXylophoneKeys from rfl]
    rw [show (⟨[m], setupXylophoneKeys, tp, np⟩ : PhysicsState).trailPoints = tp from rfl]
    rw [show (⟨[m], setupXylophoneKeys, tp, np⟩ : PhysicsState).notesPlayed = np from rfl]
    rw [hcc]
    rw [show (⟨[bounceMarble (randK 0 j) (integrateMarble dt (randA 0).1 (randA 0).2 audio m) (keyAt j)], setupXylophoneKeys.set j { keyAt j with isHit := true, hitTime := now }, tp, np ++ [((keyAt j).frequency, playNoteVelocity [bounceMarble (randK 0 j) (integrateMarble dt (randA 0).1 (randA 0).2 audio m) (keyAt j)])]⟩ : PhysicsState).marbles = [bounceMarble (randK 0 j) (integrateMarble dt (randA 0).1 (randA 0).2 audio m) (keyAt j)] from rfl]
    rw [show (⟨[bounceMarble (randK 0 j) (integrateMarble dt (randA 0).1 (randA 0).2 audio m) (keyAt j)], setupXylophoneKeys.set j { keyAt j with isHit := true, hitTime := now }, tp, np ++ [((keyAt j).frequency, playNoteVelocity [bounceMarble (randK 0 j) (integrateMarble dt (randA 0).1 (randA 0).2 audio m) (keyAt j)])]⟩ : PhysicsState).keys = setupXylophoneKeys.set j { keyAt j with isHit := true, hitTime := now } from rfl]
    rw [show (⟨[bounceMarble (randK 0 j) (integrateMarble dt (randA 0).1 (randA 0).2 audio m) (keyAt j)], setupXylophoneKeys.set j { keyAt j with isHit := true, hitTime := now }, tp, np ++ [((keyAt j).frequency, playNoteVelocity [bounceMarble (randK 0 j) (integrateMarble dt (randA 0).1 (randA 0).2 audio m) (keyAt j)])]⟩ : PhysicsState).trailPoints = tp from rfl]
    rw [show (⟨[bounceMarble (randK 0 j) (integrateMarble dt (randA 0).1 (randA 0).2 audio m) (keyAt j)], setupXylophoneKeys.set j { keyAt j with isHit := true, hitTime := now }, tp, np ++ [((keyAt j).frequency, playNoteVelocity [bounceMarble (randK 0 j) (integrateMarble dt (randA 0).1 (randA 0).2 audio m) (keyAt j)])]⟩ : PhysicsState).notesPlayed = np ++ [((keyAt j).frequency, playNoteVelocity [bounceMarble (randK 0 j) (integrateMarble dt (randA 0).1 (randA 0).2 audio m) (keyAt j)])] from rfl]
    rw [List.getElem?_cons_zero, Option.getD_some]
    rw [if_neg hby]
  have hupd : update dt now randA randK audio
      (⟨[m], setupXylophoneKeys, tp, np⟩ : PhysicsState)
      = updateKeyAnimations now (processMarble dt now randA randK audio
          (⟨[m], setupXylophoneKeys, tp, np⟩ : PhysicsState) 0) := rfl
  rw [hupd, hproc]
  constructor
  · exact updateKeyAnimations_marbles now _
  · rw [updateKeyAnimations_notesPlayed]
    show np ++ [((keyAt j).frequency,
      playNoteVelocity [bounceMarble (randK 0 j) (integrateMarble dt (randA 0).1 (randA 0).2 audio m) (keyAt j)])] = _
    rw [hpv]

/-- Integration never changes a marble's bounce count. -/
theorem integrateMarble_bounceCount (dt r1 r2 : ℚ) (audio : Option AudioInput)
    (m : MarbleState) :
    (integrateMarble dt r1 r2 audio m).bounceCount = m.bounceCount := by
  rcases audio with _ | a <;> rfl

/-- Claim C4: when a marble collides with a key during a step, the
resulting marble rests at exactly
`key.position.y + key.height/2 + marble.radius`, its vertical velocity
is `|arriving vertical velocity| · 0.7` (the arriving velocity being the
post-integration one), and its `bounceCount` has increased by exactly
one. -/
theorem collision_response (dt now : ℚ) (randA : ℕ → ℚ × ℚ)
    (randK : ℕ → ℕ → ℚ) (audio : Option AudioInput) (m : MarbleState)
    (tp : List Vec3) (np : List (ℚ × ℚ)) (j : ℕ) (hj : j < 7)
    (hact : m.isActive = true) (hrad : 0 ≤ m.radius)
    (hc : collides (integrateMarble dt (randA 0).1 (randA 0).2 audio m)
      (keyAt j) = true) :
    ∃ m2, (update dt now randA randK audio
        ⟨[m], setupXylophoneKeys, tp, np⟩).marbles = [m2] ∧
      m2.position.y = (keyAt j).position.y + (keyAt j).height / 2 + m.radius ∧
      m2.velocity.y
        = |(integrateMarble dt (randA 0).1 (randA 0).2 audio m).velocity.y|
            * (7/10) ∧
      m2.bounceCount = m.bounceCount + 1 := by
  obtain ⟨hm, _⟩ :=
    update_single_collision dt now randA randK audio m tp np j hj hact hrad hc
  refine ⟨_, hm, ?_, rfl, ?_⟩
  · show (keyAt j).position.y + (keyAt j).height / 2
        + (integrateMarble dt (randA 0).1 (randA 0).2 audio m).radius = _
    rw [integrateMarble_radius]
  · show (integrateMarble dt (randA 0).1 (randA 0).2 audio m).bounceCount + 1 = _
    rw [integrateMarble_bounceCount]

/-- Claim C1 (amended): when a marble collides with a key during a step,
`playNote` is invoked with the key's fixed frequency and with velocity
`min(1, |v|/10)` where `v` is the current vertical velocity of the last
marble in the array at the time of the call — for a single (hence last,
striking) marble that is the already-damped post-bounce velocity
`|arriving v| · 0.7`, not the arriving velocity itself. -/
theorem playnote_uses_damped_last_velocity (dt now : ℚ) (randA : ℕ → ℚ × ℚ)
    (randK : ℕ → ℕ → ℚ) (audio : Option AudioInput) (m : MarbleState)
    (tp : List Vec3) (np : List (ℚ × ℚ)) (j : ℕ) (hj : j < 7)
    (hact : m.isActive = true) (hrad : 0 ≤ m.radius)
    (hc : collides (integrateMarble dt (randA 0).1 (randA 0).2 audio m)
      (keyAt j) = true) :
    (update dt now randA randK audio
        ⟨[m], setupXylophoneKeys, tp, np⟩).notesPlayed
      = np ++ [((keyAt j).frequency,
          min 1 (|(integrateMarble dt (randA 0).1 (randA 0).2 audio m).velocity.y|
            * (7/10) / 10))] :=
  (update_single_collision dt now randA randK audio m tp np j hj hact hrad hc).2

/-- A marble one integration step away from striking key 0 with arrival
velocity `velocity.y = -5` (at `dt = 1`:
`0.98·(1151/245 - 9.8) = -5`, position `5 - 5 = 0`). -/
def strikingMarble : MarbleState :=
  { position := ⟨-6, 5, 0⟩
    velocity := ⟨0, 1151/245, 0⟩
    acceleration := ⟨0, 0, 0⟩
    radius := 3/10
    mass := 1
    bounceCount := 0
    isActive := true }

/-- The integration step that brings `strikingMarble` onto key 0. -/
theorem strikingMarble_integrate :
    integrateMarble 1 (1/2) (1/2) none strikingMarble
      = { position := ⟨-6, 0, 0⟩
          velocity := ⟨0, -5, 0⟩
          acceleration := gravity
          radius := 3/10
          mass := 1
          bounceCount := 0
          isActive := true } := by
  simp only [integrateMarble, strikingMarble, Vec3.add, Vec3.smul, gravity,
    friction, MarbleState.mk.injEq, Vec3.mk.injEq]
  norm_num

/-- The integrated `strikingMarble` overlaps key 0. -/
theorem strikingMarble_collides :
    collides (integrateMarble 1 (1/2) (1/2) none strikingMarble) (keyAt 0)
      = true := by
  rw [strikingMarble_integrate]
  refine (collides_iff _ _).mpr ⟨?_, ?_, ?_, ?_⟩ <;>
    norm_num [keyAt, setupXylophoneKeys, mkKey]

/-- Claim C1 (counterexample): a marble arriving at key 0 with
`velocity.y = -5` yields `playNote` invoked with velocity `7/20 = 0.35`
(the bounce damping is applied before `playNote` reads the velocity),
not the claimed `min(1, |-5|/10) = 0.5`. -/
theorem playnote_velocity_claim_false :
    (update 1 0 (fun _ => (1/2, 1/2)) (fun _ _ => 1/2) none
        ⟨[strikingMarble], setupXylophoneKeys, [], []⟩).notesPlayed
      = [((keyAt 0).frequency, 7/20)] ∧
    (integrateMarble 1 (1/2) (1/2) none strikingMarble).velocity.y = -5 ∧
    (7/20 : ℚ) ≠ min 1 (|(-5 : ℚ)| / 10) := by
  refine ⟨?_, by rw [strikingMarble_integrate], by norm_num⟩
  have h := (update_single_collision 1 0 (fun _ => (1/2, 1/2)) (fun _ _ => 1/2)
    none strikingMarble [] [] 0 (by norm_num) rfl
    (by norm_num [strikingMarble]) strikingMarble_collides).2
  rw [h, strikingMarble_integrate]
  norm_num

/-- Witness for `playnote_uses_damped_last_velocity` at the concrete
striking marble. -/
theorem playnote_uses_damped_last_velocity_witness :
    (update 1 0 (fun _ => (1/2, 1/2)) (fun _ _ => 1/2) none
        ⟨[strikingMarble], setupXylophoneKeys, [], []⟩).notesPlayed
      = [] ++ [((keyAt 0).frequency,
          min 1 (|(integrateMarble 1 (1/2) (1/2) none
            strikingMarble).velocity.y| * (7/10) / 10))] :=
  playnote_uses_damped_last_velocity 1 0 (fun _ => (1/2, 1/2)) (fun _ _ => 1/2)
    none strikingMarble [] [] 0 (by norm_num) rfl
    (by norm_num [strikingMarble]) strikingMarble_collides

/-- Witness for `collision_response` at the concrete striking marble. -/
theorem collision_response_witness :
    ∃ m2, (update 1 0 (fun _ => (1/2, 1/2)) (fun _ _ => 1/2) none
        ⟨[strikingMarble], setupXylophoneKeys, [], []⟩).marbles = [m2] ∧
      m2.position.y
        = (keyAt 0).position.y + (keyAt 0).height / 2 + strikingMarble.radius ∧
      m2.velocity.y
        = |(integrateMarble 1 (1/2) (1/2) none strikingMarble).velocity.y|
            * (7/10) ∧
      m2.bounceCount = strikingMarble.bounceCount + 1 :=
  collision_response 1 0 (fun _ => (1/2, 1/2)) (fun _ _ => 1/2) none
    strikingMarble [] [] 0 (by norm_num) rfl
    (by norm_num [strikingMarble]) strikingMarble_collides

/-- A marble that integrates to below the retirement floor in one step
(`-1 - 9.8·0.98 = -10.604 < -10` at `dt = 1`). -/
def sinkingMarble : MarbleState :=
  { position := ⟨0, -1, 0⟩
    velocity := ⟨0, 0, 0⟩
    acceleration := ⟨0, 0, 0⟩
    radius := 3/10
    mass := 1
    bounceCount := 0
    isActive := true }

/-- Witness for `marble_retired_same_step`: a two-marble field in which
the first marble integrates below the floor and the second survives. -/
theorem marble_retired_same_step_witness :
    (update 1 0 (fun _ => (1/2, 1/2)) (fun _ _ => 1/2) none
        ⟨[sinkingMarble, droppedMarble], setupXylophoneKeys, [], []⟩).marbles
      = survivorsFrom 1 (fun _ => (1/2, 1/2)) (fun _ _ => 1/2) none
          setupXylophoneKeys 0 [sinkingMarble, droppedMarble] ∧
    (update 1 0 (fun _ => (1/2, 1/2)) (fun _ _ => 1/2) none
        ⟨[sinkingMarble, droppedMarble], setupXylophoneKeys, [], []⟩).marbles.length
      + retiredCountFrom 1 (fun _ => (1/2, 1/2)) none 0
          [sinkingMarble, droppedMarble] = 2 := by
  have h := marble_retired_same_step 1 0 (fun _ => (1/2, 1/2)) (fun _ _ => 1/2)
    none ⟨[sinkingMarble, droppedMarble], setupXylophoneKeys, [], []⟩
    (by
      intro mm hmm
      simp only [List.mem_cons, List.not_mem_nil, or_false] at hmm
      rcases hmm with h | h <;> subst h <;> rfl)
    rfl
    (by
      intro mm hmm
      simp only [List.mem_cons, List.not_mem_nil, or_false] at hmm
      rcases hmm with h | h <;> subst h <;>
        constructor <;> norm_num [sinkingMarble, droppedMarble])
  exact h

end MusicAnim
